import Mathlib

/-!
Verification of the Sky1 kernel-config management scripts
(`scripts/manage-config.py` and `scripts/reconcile-configs.py`).

The Python code is text processing over newline-separated files.  We embed
Python strings as `Str := List Char` (a Python `str` is a sequence of
characters) and translate each Python function into a Lean function over
`Str`.  `str.splitlines` (with its full set of line-boundary characters),
`str.strip`, `str.upper`, `in`, `str.replace`, slicing, `list.insert` and
the `re.sub` string-replacement-template processing used by
`set_config_line` are given faithful executable models below.  The
filesystem touched by a command is a record of optional file contents
(`none` = the file does not exist); a Python `read_text` on a missing file
(an uncaught `FileNotFoundError`) and an `re.error` raised by
replacement-template parsing are modelled by `Option`-valued functions
returning `none`.
-/

/-- A Python string: a sequence of characters. -/
abbrev Str := List Char

/-- Coerce a Lean string literal to the `Str` model. -/
def strLit (s : String) : Str := s.data

/-- Split on `'\n'`, keeping every (possibly empty) component, as an
accumulator pair: the component being built and the finished components. -/
def splitNlCore : Str → Str × List Str
  | [] => ([], [])
  | c :: cs =>
    let r := splitNlCore cs
    if c = '\n' then ([], r.1 :: r.2) else (c :: r.1, r.2)

/-- All components of a string split on `'\n'` (like Python `s.split("\n")`,
so `splitNl "a\n" = ["a", ""]` and `splitNl "" = [""]`). -/
def splitNl (s : Str) : List Str := (splitNlCore s).1 :: (splitNlCore s).2

/-- Interpose `'\n'` between components (Python `"\n".join(ls)`). -/
def joinNl : List Str → Str
  | [] => []
  | [l] => l
  | l :: l₂ :: ls => l ++ '\n' :: joinNl (l₂ :: ls)

/-- The line-boundary characters of Python `str.splitlines`: LF, CR, VT,
FF, FS, GS, RS, NEL, LINE SEPARATOR and PARAGRAPH SEPARATOR. -/
def pyLineBreak (c : Char) : Bool :=
  c == '\n' || c == '\r' || c == '\x0B' || c == '\x0C' || c == '\x1C' || c == '\x1D' ||
    c == '\x1E' || c == Char.ofNat 0x85 || c == Char.ofNat 0x2028 || c == Char.ofNat 0x2029

/-- A string free of line-boundary characters (one `splitlines` line). -/
def lbFree (l : Str) : Bool := l.all fun c => !pyLineBreak c

/-- The scan of Python `s.splitlines()`, accumulating the current line in
reverse; after a split at `'\r'` the flag records that one immediately
following `'\n'` belongs to the same `"\r\n"` boundary and is consumed
without a further split. -/
def pySplitlinesGo : Bool → Str → Str → List Str
  | _, [], acc => if acc = [] then [] else [acc.reverse]
  | skip, c :: rest, acc =>
    if skip && c == '\n' then pySplitlinesGo false rest acc
    else if c == '\r' then acc.reverse :: pySplitlinesGo true rest []
    else if pyLineBreak c then acc.reverse :: pySplitlinesGo false rest []
    else pySplitlinesGo false rest (c :: acc)

/-- Python `s.splitlines()`: split at every line boundary (`"\r\n"` counts
as a single boundary), no trailing empty line for a trailing boundary, and
`"" ↦ []`. -/
def pySplitlines (s : Str) : List Str := pySplitlinesGo false s []

/-- The characters Python `str.strip()` removes (ASCII whitespace). -/
def pySpaceChar (c : Char) : Bool :=
  c == ' ' || c == '\t' || c == '\n' || c == '\r' || c == '\x0b' || c == '\x0c'

/-- Python `s.strip()`: drop leading and trailing whitespace. -/
def pyStrip (s : Str) : Str :=
  ((s.dropWhile pySpaceChar).reverse.dropWhile pySpaceChar).reverse

/-- Python `s.upper()` (character-wise uppercase). -/
def pyUpper (s : Str) : Str := s.map Char.toUpper

/-- Python `needle in hay` (substring containment). -/
def isSub (needle : Str) : Str → Bool
  | [] => needle.isEmpty
  | c :: cs => needle.isPrefixOf (c :: cs) || isSub needle cs

/-- Python `list.insert(i, x)`: insert at position `i`, appending when `i`
is past the end. -/
def pyInsert (i : Nat) (x : Str) (l : List Str) : List Str :=
  l.take i ++ x :: l.drop i

/-- Python `s.replace(old, new)` (all occurrences, left to right,
non-overlapping), with explicit fuel so that it is structural. -/
def replaceAllFuel (old new : Str) : Nat → Str → Str
  | 0, s => s
  | _ + 1, [] => []
  | fuel + 1, c :: cs =>
    if old ≠ [] ∧ old.isPrefixOf (c :: cs) then
      new ++ replaceAllFuel old new fuel (cs.drop (old.length - 1))
    else
      c :: replaceAllFuel old new fuel cs

/-- Python `s.replace(old, new)`. -/
def replaceAll (old new s : Str) : Str := replaceAllFuel old new s.length s

/-- Python `s.split()` (split on whitespace runs, no empty tokens):
auxiliary with the current token accumulated in reverse. -/
def splitWsAux (acc : Str) : Str → List Str
  | [] => if acc = [] then [] else [acc.reverse]
  | c :: cs =>
    if pySpaceChar c then
      if acc = [] then splitWsAux [] cs else acc.reverse :: splitWsAux [] cs
    else splitWsAux (c :: acc) cs

/-- Python `s.split()`. -/
def splitWs (s : Str) : List Str := splitWsAux [] s

/-- Python `a < b` on strings: lexicographic by code point. -/
def ltStr : Str → Str → Bool
  | _, [] => false
  | [], _ :: _ => true
  | a :: as, b :: bs =>
    if a.val < b.val then true else if b.val < a.val then false else ltStr as bs

/-- Insert into an ascending-by-key list (used to model Python `sorted`). -/
def insAsc {α : Type} (x : Str × α) : List (Str × α) → List (Str × α)
  | [] => [x]
  | y :: ys => if ltStr x.1 y.1 then x :: y :: ys else y :: insAsc x ys

/-- Python `sorted(d.items())` for a dict with distinct keys. -/
def sortByKey {α : Type} (l : List (Str × α)) : List (Str × α) := l.foldr insAsc []

/-- Insert into an ascending list of strings. -/
def insAscStr (x : Str) : List Str → List Str
  | [] => [x]
  | y :: ys => if ltStr x y then x :: y :: ys else y :: insAscStr x ys

/-- Python `sorted` on a list of strings. -/
def sortStrs (l : List Str) : List Str := l.foldr insAscStr []

/-- Python dict assignment `d[k] = v`: overwrite in place or append. -/
def dinsert (k v : Str) (d : List (Str × Str)) : List (Str × Str) :=
  if d.any (fun p => p.1 == k) then
    d.map (fun p => if p.1 == k then (k, v) else p)
  else d ++ [(k, v)]

/-- Python `d.get(k)` on the dict model. -/
def dget (d : List (Str × Str)) (k : Str) : Option Str :=
  (d.find? (fun p => p.1 == k)).map (·.2)

/-- First index satisfying a predicate (Python linear scan with early
`return` from an enumerated loop). -/
def findIdxP (p : Str → Bool) : List Str → Option Nat
  | [] => none
  | l :: rest => if p l then some 0 else (findIdxP p rest).map (· + 1)

-- Sanity checks for the Python-string model.
example : splitNl (strLit "a\nb\n") = [strLit "a", strLit "b", []] := by decide
example : pySplitlines (strLit "a\nb\n") = [strLit "a", strLit "b"] := by decide
example : pySplitlines (strLit "") = [] := by decide
example : pySplitlines (strLit "a\rb\x0c\nc") = [strLit "a", strLit "b", [], strLit "c"] := by
  decide
example : pySplitlines (strLit "a\r\nb") = [strLit "a", strLit "b"] := by decide
example : pyStrip (strLit "  x y\t") = strLit "x y" := by decide
example : isSub (strLit "NFIG") (strLit "CONFIG_X") = true := by decide
example : replaceAll (strLit "a=n") (strLit "a=y") (strLit "xa=nza=n") = strLit "xa=yza=y" := by
  decide
example : splitWs (strLit "# CONFIG_X is not set") =
    [strLit "#", strLit "CONFIG_X", strLit "is", strLit "not", strLit "set"] := by decide
example : sortByKey [(strLit "b", 0), (strLit "a", 1)] = [(strLit "a", 1), (strLit "b", 0)] := by
  decide

/-!
## `scripts/manage-config.py`: config, policy and README text operations
-/

/-- `normalize_option`: strip the `CONFIG_` prefix if present. -/
def normalize_option (name : Str) : Str :=
  if (strLit "CONFIG_").isPrefixOf name then name.drop (strLit "CONFIG_").length else name

/-- The replacement line `set_config_line` writes for a value. -/
def configNewLine (option value : Str) : Str :=
  if value = strLit "n" then strLit "# CONFIG_" ++ option ++ strLit " is not set"
  else strLit "CONFIG_" ++ option ++ strLit "=" ++ value

/-- A line matching `^CONFIG_<option>=.*$`. -/
def enabledMatch (option : Str) (line : Str) : Bool :=
  (strLit "CONFIG_" ++ option ++ strLit "=").isPrefixOf line

/-- A line matching `^# CONFIG_<option> is not set$`. -/
def disabledMatch (option : Str) (line : Str) : Bool :=
  line == strLit "# CONFIG_" ++ option ++ strLit " is not set"

/-- Python's octal digits `"01234567"`. -/
def isOctDigitC (c : Char) : Bool := decide (48 ≤ c.toNat ∧ c.toNat ≤ 55)

/-- Python's decimal digits `"0123456789"`. -/
def isDecDigitC (c : Char) : Bool := decide (48 ≤ c.toNat ∧ c.toNat ≤ 57)

/-- Python's `ascii_letters`. -/
def isAsciiLetterC (c : Char) : Bool :=
  decide ((65 ≤ c.toNat ∧ c.toNat ≤ 90) ∨ (97 ≤ c.toNat ∧ c.toNat ≤ 122))

/-- The numeric value of a decimal digit character. -/
def digitVal (c : Char) : Nat := c.toNat - 48

/-- The recognised letter escapes of an `re.sub` replacement template:
`\a \b \f \n \r \t \v \\`. -/
def tplEscape (c : Char) : Option Char :=
  if c == 'a' then some '\x07'
  else if c == 'b' then some '\x08'
  else if c == 'f' then some '\x0C'
  else if c == 'n' then some '\n'
  else if c == 'r' then some '\x0D'
  else if c == 't' then some '\t'
  else if c == 'v' then some '\x0B'
  else if c == '\\' then some '\\'
  else none

/-- A parsed piece of an `re.sub` string replacement template: a literal
character or a capture-group reference. -/
inductive TplPiece where
  | lit (c : Char)
  | grp (n : Nat)
deriving DecidableEq

/-- Scan to the first `'>'`: `some (name, rest)` splits off the group name
of a `\g<name>` reference, `none` when the `'>'` is missing. -/
def splitAtGt : Str → Option (Str × Str)
  | [] => none
  | c :: rest =>
    if c = '>' then some ([], rest)
    else (splitAtGt rest).map fun p => (c :: p.1, p.2)

/-- The digit run of a Python `int()` literal, allowing single underscores
between digits; `none` when malformed. -/
def digitsValGo (acc : Nat) : Str → Option Nat
  | [] => some acc
  | c :: rest =>
    if isDecDigitC c then digitsValGo (10 * acc + digitVal c) rest
    else if c = '_' then
      match rest with
      | d :: rest2 => if isDecDigitC d then digitsValGo (10 * acc + digitVal d) rest2 else none
      | [] => none
    else none

/-- `int(name)` for a `\g<name>` group index: strip surrounding whitespace,
allow one `'+'` sign, then decimal digits (a negative index raises).
`none` models the raise for every non-numeric name — identifier names are
looked up in the pattern's empty named-group table and fail too. -/
def pyGroupInt (name : Str) : Option Nat :=
  match pyStrip name with
  | [] => none
  | '+' :: rest =>
    match rest with
    | c :: _ => if isDecDigitC c then digitsValGo 0 rest else none
    | [] => none
  | '-' :: _ => none
  | c :: rest => if isDecDigitC c then digitsValGo 0 (c :: rest) else none

/-- One escape of an `re.sub` replacement template: parse the characters
after a `\` (CPython `re._parser.parse_template`), returning the produced
pieces and the remaining input.  The letter escapes become control
characters, `\0` plus up to two octal digits is an octal character,
`\1`–`\99` are group references (except three octal digits, an octal
character, erring above `0o377`; a reference above `ngroups` is an error),
`\g<num>` is a group reference, `\` before any other ASCII letter is an
error, `\` before a non-letter stays as the two literal characters, and a
trailing `\` is an error.  `none` models `re.error`. -/
def tplEscapeStep (ngroups : Nat) : Str → Option (List TplPiece × Str)
  | [] => none
  | e :: rest1 =>
    if e = 'g' then
      match rest1 with
      | '<' :: rest2 =>
        match splitAtGt rest2 with
        | none => none
        | some (name, rest3) =>
          if name = [] then none
          else
            match pyGroupInt name with
            | none => none
            | some idx =>
              if idx > ngroups then none
              else some ([TplPiece.grp idx], rest3)
      | _ => none
    else if e = '0' then
      match rest1 with
      | d1 :: d2 :: rest2 =>
        if isOctDigitC d1 && isOctDigitC d2 then
          some ([TplPiece.lit (Char.ofNat ((8 * digitVal d1 + digitVal d2) % 256))], rest2)
        else if isOctDigitC d1 then
          some ([TplPiece.lit (Char.ofNat (digitVal d1 % 256))], d2 :: rest2)
        else some ([TplPiece.lit (Char.ofNat 0)], rest1)
      | [d1] =>
        if isOctDigitC d1 then some ([TplPiece.lit (Char.ofNat (digitVal d1 % 256))], [])
        else some ([TplPiece.lit (Char.ofNat 0)], [d1])
      | [] => some ([TplPiece.lit (Char.ofNat 0)], [])
    else if isDecDigitC e then
      match rest1 with
      | d2 :: rest2 =>
        if isDecDigitC d2 then
          match rest2 with
          | d3 :: rest3 =>
            if isOctDigitC e && isOctDigitC d2 && isOctDigitC d3 then
              if 64 * digitVal e + 8 * digitVal d2 + digitVal d3 > 255 then none
              else
                some ([TplPiece.lit
                  (Char.ofNat (64 * digitVal e + 8 * digitVal d2 + digitVal d3))], rest3)
            else
              if 10 * digitVal e + digitVal d2 > ngroups then none
              else some ([TplPiece.grp (10 * digitVal e + digitVal d2)], rest2)
          | [] =>
            if 10 * digitVal e + digitVal d2 > ngroups then none
            else some ([TplPiece.grp (10 * digitVal e + digitVal d2)], [])
        else
          if digitVal e > ngroups then none
          else some ([TplPiece.grp (digitVal e)], rest1)
      | [] =>
        if digitVal e > ngroups then none
        else some ([TplPiece.grp (digitVal e)], [])
    else
      match tplEscape e with
      | some ch => some ([TplPiece.lit ch], rest1)
      | none =>
        if isAsciiLetterC e then none
        else some ([TplPiece.lit '\\', TplPiece.lit e], rest1)

/-- Parse an `re.sub` string replacement template against a pattern with
`ngroups` capture groups: literal characters are kept and each `\` hands
over to `tplEscapeStep`.  The fuel is spent one unit per step and every
step consumes at least one character, so `length + 1` fuel always
suffices. -/
def parseTemplateFuel (ngroups : Nat) : Nat → Str → Option (List TplPiece)
  | 0, _ => none
  | _ + 1, [] => some []
  | fuel + 1, c :: rest =>
    if c = '\\' then
      match tplEscapeStep ngroups rest with
      | none => none
      | some (ps, rest2) => (parseTemplateFuel ngroups fuel rest2).map (ps ++ ·)
    else (parseTemplateFuel ngroups fuel rest).map (TplPiece.lit c :: ·)

/-- Parse an `re.sub` string replacement template. -/
def parseTemplate (ngroups : Nat) (s : Str) : Option (List TplPiece) :=
  parseTemplateFuel ngroups (s.length + 1) s

/-- Fill a parsed replacement template at one match of the pattern.  The
patterns built by `set_config_line` declare no capture groups, so the only
reference that passes validation is group 0 — the whole match. -/
def expandTpl (m : Str) : List TplPiece → Str
  | [] => []
  | TplPiece.lit c :: rest => c :: expandTpl m rest
  | TplPiece.grp _ :: rest => m ++ expandTpl m rest

/-- `set_config_line(text, option, value)`: regex full-line substitution
over the `'\n'`-separated components of `text` (a `re.MULTILINE` match of
`^…$` spans exactly one component, and `.` does match `'\r'`).  The
replacement `new_line` is an `re.sub` string template whose backslash
escapes are processed per match; a bad escape raises `re.error`, modelled
as `none`.  Returns `some (new_text, changed)` on a completing call. -/
def set_config_line (text option value : Str) : Option (Str × Bool) :=
  if (splitNl text).any (enabledMatch option) then
    match parseTemplate 0 (configNewLine option value) with
    | none => none
    | some tpl =>
      some (joinNl ((splitNl text).map fun c =>
          if enabledMatch option c then expandTpl c tpl else c),
        decide (joinNl ((splitNl text).map fun c =>
          if enabledMatch option c then expandTpl c tpl else c) ≠ text))
  else if (splitNl text).any (disabledMatch option) then
    match parseTemplate 0 (configNewLine option value) with
    | none => none
    | some tpl =>
      some (joinNl ((splitNl text).map fun c =>
          if disabledMatch option c then expandTpl c tpl else c),
        decide (joinNl ((splitNl text).map fun c =>
          if disabledMatch option c then expandTpl c tpl else c) ≠ text))
  else some (text, false)

/-- `get_config_value(path, option)` on the file's text: first matching line
wins, `KEY=v ↦ v`, `# KEY is not set ↦ "n"`. -/
def get_config_value (text option : Str) : Option Str :=
  (pySplitlines text).findSome? fun line =>
    if enabledMatch option line then some ((line.dropWhile (· != '=')).drop 1)
    else if line == strLit "# CONFIG_" ++ option ++ strLit " is not set" then some (strLit "n")
    else none

/-- A policy line that carries an entry: `"=" in stripped and not
stripped.startswith("#") and not stripped.startswith("[")`. -/
def isEntryLine (line : Str) : Bool :=
  let s := pyStrip line
  s.any (· == '=') && !(strLit "#").isPrefixOf s && !(strLit "[").isPrefixOf s

/-- `stripped.split("=")[0].strip()` of a policy line. -/
def entryKeyOf (line : Str) : Str :=
  pyStrip ((pyStrip line).takeWhile (· != '='))

/-- The policy-entry line whose key (case-insensitively) equals `bare`. -/
def keyMatches (bare : Str) (line : Str) : Bool :=
  isEntryLine line && pyUpper (entryKeyOf line) == bare

/-- `get_policy_entry`'s scan, carrying the current section. -/
def getPolicyGo (bare : Str) (sect : Option Str) : List Str → Option (Str × Str)
  | [] => none
  | l :: rest =>
    let s := pyStrip l
    if (strLit "[").isPrefixOf s && s.getLast? == some ']' then
      getPolicyGo bare (some ((s.drop 1).dropLast)) rest
    else if s.any (· == '=') && !(strLit "#").isPrefixOf s then
      if pyUpper (pyStrip (s.takeWhile (· != '='))) == bare then
        some (sect.getD (strLit "unknown"), pyStrip ((s.dropWhile (· != '=')).drop 1))
      else getPolicyGo bare sect rest
    else getPolicyGo bare sect rest

/-- `get_policy_entry(option)` on the policy file's text: `(section, value)`
of the first occurrence, scanning top to bottom. -/
def get_policy_entry (text option : Str) : Option (Str × Str) :=
  getPolicyGo (pyUpper option) none (pySplitlines text)

/-- `set_policy_entry`'s second loop: find where to insert a new entry in
the named section (`in_section`/`insert_at` state machine with `break`). -/
def findInsertAtGo (hdr : Str) (i : Nat) (inSec : Bool) (acc : Option Nat) :
    List Str → Option Nat
  | [] => acc
  | l :: rest =>
    let s := pyStrip l
    if s == hdr then findInsertAtGo hdr (i + 1) true acc rest
    else if inSec then
      if (strLit "[").isPrefixOf s || s == [] then some i
      else findInsertAtGo hdr (i + 1) true (some (i + 1)) rest
    else findInsertAtGo hdr (i + 1) inSec acc rest

/-- Where `set_policy_entry` inserts a new entry for section header `hdr`. -/
def findInsertAt (hdr : Str) (lines : List Str) : Option Nat :=
  findInsertAtGo hdr 0 false none lines

/-- `set_policy_entry(text, option, value, section)`: rewrite an existing
entry anywhere, else insert as last entry of the section, else append a new
section at end of file.  Returns `(new_text, changed)`. -/
def set_policy_entry (text option value sect : Str) : Str × Bool :=
  let bare := pyUpper option
  let newEntry := bare ++ '=' :: value
  let lines := pySplitlines text
  match findIdxP (keyMatches bare) lines with
  | some i =>
    if pyStrip (lines.getD i []) == newEntry then (text, false)
    else (joinNl (lines.set i newEntry) ++ ['\n'], true)
  | none =>
    match findInsertAt ('[' :: sect ++ [']']) lines with
    | some j => (joinNl (pyInsert j newEntry lines) ++ ['\n'], true)
    | none => (joinNl (lines ++ ['\n' :: '[' :: sect ++ [']'], newEntry]) ++ ['\n'], true)

/-- `remove_policy_entry(text, option)`: drop every entry line whose key
matches; returns `("\n".join(kept) + "\n", removed)`. -/
def remove_policy_entry (text option : Str) : Str × Bool :=
  let bare := pyUpper option
  let lines := pySplitlines text
  (joinNl (lines.filter fun l => !keyMatches bare l) ++ ['\n'], lines.any (keyMatches bare))

/-- The backticked key `` `option` `` used by the README operations. -/
def docKey (option : Str) : Str := strLit "`" ++ option ++ strLit "`"

/-- A README table row for the option: contains the backticked key and
starts with a pipe. -/
def rowMatches (key : Str) (line : Str) : Bool :=
  isSub key line && (strLit "|").isPrefixOf line

/-- `get_readme_entry(option)` on the README's text. -/
def get_readme_entry (text option : Str) : Option Str :=
  ((pySplitlines text).find? (rowMatches (docKey option))).map pyStrip

/-- `add_readme_entry`'s heading/table scan (`in_section`/`in_table`/
`insert_at` state machine with `break`). -/
def findDocInsertGo (hp : Str) (i : Nat) (inSec inTab : Bool) (acc : Option Nat) :
    List Str → Option Nat
  | [] => acc
  | l :: rest =>
    if pyStrip l == hp then findDocInsertGo hp (i + 1) true inTab acc rest
    else if inSec then
      if (strLit "|---").isPrefixOf l || (strLit "| ---").isPrefixOf l then
        findDocInsertGo hp (i + 1) true true acc rest
      else if inTab then
        if (strLit "|").isPrefixOf l then findDocInsertGo hp (i + 1) true true (some (i + 1)) rest
        else some i
      else findDocInsertGo hp (i + 1) true inTab acc rest
    else findDocInsertGo hp (i + 1) inSec inTab acc rest

/-- Where `add_readme_entry` inserts a new row under heading `heading`. -/
def findDocInsert (heading : Str) (lines : List Str) : Option Nat :=
  findDocInsertGo (strLit "## " ++ heading) 0 false false none lines

/-- The table row `add_readme_entry` writes. -/
def docNewRow (option ty desc : Str) : Str :=
  strLit "| `" ++ option ++ strLit "` | " ++ ty ++ strLit " | " ++ desc ++ strLit " |"

/-- `add_readme_entry(text, option, heading, opt_type, desc)`: rewrite an
existing row keyed by the backticked option anywhere, else insert after the
last row of the heading's table, else no-op.  Returns `(new_text, changed)`. -/
def add_readme_entry (text option heading ty desc : Str) : Str × Bool :=
  let key := docKey option
  let newRow := docNewRow option ty desc
  let lines := pySplitlines text
  let insertPart : Str × Bool :=
    match findDocInsert heading lines with
    | some j => (joinNl (pyInsert j newRow lines) ++ ['\n'], true)
    | none => (text, false)
  if isSub key text then
    match findIdxP (rowMatches key) lines with
    | some i =>
      if pyStrip (lines.getD i []) == newRow then (text, false)
      else (joinNl (lines.set i newRow) ++ ['\n'], true)
    | none => insertPart
  else insertPart

/-- `remove_readme_entry(text, option)`: drop every table row containing the
backticked key; returns `("\n".join(kept) + "\n", removed)`. -/
def remove_readme_entry (text option : Str) : Str × Bool :=
  let key := docKey option
  let lines := pySplitlines text
  (joinNl (lines.filter fun l => !rowMatches key l) ++ ['\n'], lines.any (rowMatches key))

-- Sanity checks against the Python behaviour.
example : set_config_line (strLit "CONFIG_A=y\nCONFIG_B=m\n") (strLit "A") (strLit "n") =
    some (strLit "# CONFIG_A is not set\nCONFIG_B=m\n", true) := by decide
example : set_config_line (strLit "CONFIG_B=m\n") (strLit "A") (strLit "y") =
    some (strLit "CONFIG_B=m\n", false) := by decide
-- A backslash escape in the value is processed by the replacement template:
-- `\t` writes a tab, `\q` is a bad escape (`re.error`), `\g<0>` writes the
-- matched line, and escapes are only parsed when a substitution happens.
example : set_config_line (strLit "CONFIG_A=1\n") (strLit "A") (strLit "\\t") =
    some (strLit "CONFIG_A=\t\n", true) := by decide
example : set_config_line (strLit "CONFIG_A=1\n") (strLit "A") (strLit "\\q") = none := by decide
example : set_config_line (strLit "CONFIG_B=1\n") (strLit "A") (strLit "\\q") =
    some (strLit "CONFIG_B=1\n", false) := by decide
example : set_config_line (strLit "CONFIG_A=1\n") (strLit "A") (strLit "x\\g<0>") =
    some (strLit "CONFIG_A=xCONFIG_A=1\n", true) := by decide
example : set_config_line (strLit "CONFIG_A=1\n") (strLit "A") (strLit "\\1") = none := by decide
example : set_config_line (strLit "CONFIG_A=1\n") (strLit "A") (strLit "\\101") =
    some (strLit "CONFIG_A=A\n", true) := by decide
example : set_config_line (strLit "CONFIG_A=1\n") (strLit "A") (strLit "\\$") =
    some (strLit "CONFIG_A=\\$\n", true) := by decide
example : get_config_value (strLit "# CONFIG_A is not set\n") (strLit "A") = some (strLit "n") := by
  decide
example : set_policy_entry (strLit "[usb]\n") (strLit "USB_UAS") (strLit "m") (strLit "usb") =
    (strLit "[usb]\n\n[usb]\nUSB_UAS=m\n", true) := by decide
example : set_policy_entry (strLit "[usb]\nUSB_X=y\n[v]\n") (strLit "USB_UAS") (strLit "m")
    (strLit "usb") = (strLit "[usb]\nUSB_X=y\nUSB_UAS=m\n[v]\n", true) := by decide
-- A carriage return in the value re-splits the written entry on re-read.
example : set_policy_entry (strLit "") (strLit "FOO") (strLit "a\rb") (strLit "s") =
    (strLit "\n[s]\nFOO=a\rb\n", true) := by decide
example : set_policy_entry (strLit "\n[s]\nFOO=a\rb\n") (strLit "FOO") (strLit "a\rb")
    (strLit "s") = (strLit "\n[s]\nFOO=a\rb\nb\n", true) := by decide
example : get_policy_entry (strLit "[a]\nFOO=y\n[b]\nFOO=n\n") (strLit "FOO") =
    some (strLit "a", strLit "y") := by decide
example : add_readme_entry (strLit "## USB Support\n| a | b | c |\n|---|---|---|\n| `X` | m | x |\n")
    (strLit "USB_UAS") (strLit "USB Support") (strLit "module") (strLit "d") =
    (strLit "## USB Support\n| a | b | c |\n|---|---|---|\n| `X` | m | x |\n| `USB_UAS` | module | d |\n",
     true) := by decide
example : remove_policy_entry (strLit "[a]\nFOO=y\nBAR=n\n") (strLit "foo") =
    (strLit "[a]\nBAR=n\n", true) := by decide

/-!
## `scripts/reconcile-configs.py`: parsing, classification, reconcile, review
-/

/-- One step of `parse_config`'s line loop. -/
def parseConfigStep (acc : List (Str × Str)) (l : Str) : List (Str × Str) :=
  if (strLit "CONFIG_").isPrefixOf l then
    dinsert (l.takeWhile (· != '=')) ((l.dropWhile (· != '=')).drop 1) acc
  else if (strLit "# CONFIG_").isPrefixOf l && (strLit " is not set").isSuffixOf l then
    dinsert ((splitWs l).getD 1 []) (strLit "n") acc
  else acc

/-- `parse_config(path)` on the file's text: the `{CONFIG_FOO: value}` dict
(insertion-ordered, later assignments overwrite). -/
def parse_config (text : Str) : List (Str × Str) :=
  (pySplitlines text).foldl parseConfigStep []

/-- One line of `parse_policy`.  Models the `configparser` read of the
well-formed LF `key=value` INI files this repository uses: comments
(`#`/`;`) and blank lines are skipped, `[section]` lines switch sections
(the resulting flat dict does not depend on the section), keys are
case-folded (lowercased by `configparser`, then `.upper()` by the caller)
and surrounding whitespace of key and value is stripped; a later duplicate
key overwrites the earlier dict entry. -/
def parsePolicyStep (acc : List (Str × Str)) (l : Str) : List (Str × Str) :=
  let s := pyStrip l
  if s == [] then acc
  else if (strLit "#").isPrefixOf s || (strLit ";").isPrefixOf s then acc
  else if (strLit "[").isPrefixOf s then acc
  else if s.any (· == '=') then
    dinsert (strLit "CONFIG_" ++ pyUpper (pyStrip (s.takeWhile (· != '='))))
      (pyStrip ((s.dropWhile (· != '=')).drop 1)) acc
  else acc

/-- `parse_policy()` on the policy file's text: `{CONFIG_FOO: value}`. -/
def parsePolicy (text : Str) : List (Str × Str) :=
  (pySplitlines text).foldl parsePolicyStep []

/-- `IGNORE_PATTERNS`: each is `^LITERAL=`-anchored, so matching is a
prefix test. -/
def IGNORE_PATTERNS : List Str :=
  [strLit "CONFIG_CC_VERSION_TEXT=", strLit "CONFIG_GCC_VERSION=", strLit "CONFIG_LD_VERSION=",
   strLit "CONFIG_CLANG_VERSION=", strLit "CONFIG_AS_VERSION=", strLit "CONFIG_PAHOLE_VERSION=",
   strLit "CONFIG_RUSTC_VERSION=", strLit "CONFIG_BINDGEN_VERSION=",
   strLit "CONFIG_KERNEL_VERSION_GENERATION="]

/-- `is_ignored(line)`. -/
def is_ignored (line : Str) : Bool := IGNORE_PATTERNS.any (·.isPrefixOf line)

/-- `SUBSYSTEM_PREFIXES` in declaration (dict-iteration) order. -/
def SUBSYSTEM_PREFIXES : List (Str × Str) :=
  [(strLit "DRM_", strLit "Display/GPU"), (strLit "SND_", strLit "Audio"),
   (strLit "NET_", strLit "Network"), (strLit "NFT_", strLit "Network/Netfilter"),
   (strLit "NF_", strLit "Network/Netfilter"), (strLit "CRYPTO_", strLit "Crypto"),
   (strLit "SECURITY_", strLit "Security"), (strLit "USB_", strLit "USB"),
   (strLit "PHY_", strLit "PHY"), (strLit "PCI_", strLit "PCI"),
   (strLit "ARM64_", strLit "ARM64"), (strLit "ARCH_", strLit "Architecture"),
   (strLit "CIX_", strLit "Sky1"), (strLit "SKY1_", strLit "Sky1"),
   (strLit "LINLON", strLit "Sky1"), (strLit "TRILIN", strLit "Sky1"),
   (strLit "PANTHOR", strLit "Sky1"), (strLit "ARMCHINA", strLit "Sky1"),
   (strLit "CDNSP_SKY1", strLit "Sky1")]

/-- `categorize_option(opt)`: first prefix match in declaration order wins,
default "Other". -/
def categorize_option (opt : Str) : Str :=
  match SUBSYSTEM_PREFIXES.find? (fun p => p.1.isPrefixOf (normalize_option opt)) with
  | some p => p.2
  | none => strLit "Other"

/-- The Sky1 marker substrings of `is_sky1_option`. -/
def SKY1_MARKERS : List Str :=
  [strLit "CIX", strLit "SKY1", strLit "LINLON", strLit "TRILIN", strLit "PANTHOR",
   strLit "ARMCHINA", strLit "CDNSP_SKY1"]

/-- `is_sky1_option(opt)`: marker substring containment on the bare name. -/
def is_sky1_option (opt : Str) : Bool :=
  SKY1_MARKERS.any (fun m => isSub m (normalize_option opt))

/-- The reconcile filesystem: the four track config files (in `TRACKS`
order LTS, Latest, RC, Next) and the policy file; `none` = missing. -/
structure RFS where
  tracks : List (Option Str)
  policy : Option Str
deriving DecidableEq

/-- A policy violation: `actual = none` is a MISSING flag, otherwise a
MISMATCH flag for an option present with a different value. -/
structure Violation where
  track : Nat
  opt : Str
  actual : Option Str
  required : Str
deriving DecidableEq

/-- The outcome of one `cmd_reconcile` run: final file state, exit status,
the violations reported, how many were fixed, and the divergence counters
of the report. -/
structure RecResult where
  fs : RFS
  exitCode : Nat
  violations : List Violation
  fixedCount : Nat
  divCount : Nat
  sky1Count : Nat
deriving DecidableEq

/-- The loaded (existing) tracks with their parsed configs, in declaration
order. -/
def loadConfigs (fs : RFS) : List (Nat × List (Str × Str)) :=
  fs.tracks.enum.filterMap fun p => p.2.map fun t => (p.1, parse_config t)

/-- The parsed policy (`{}` when the file is missing). -/
def policyOf (fs : RFS) : List (Str × Str) :=
  match fs.policy with
  | none => []
  | some t => parsePolicy t

/-- The policy-check loop: for each policy entry (sorted by option name),
for each loaded track in order, flag MISSING or MISMATCH. -/
def reconcileViolations (cfgs : List (Nat × List (Str × Str))) (pol : List (Str × Str)) :
    List Violation :=
  ((sortByKey pol).map fun pr =>
    cfgs.filterMap fun c =>
      match dget c.2 pr.1 with
      | none => some ⟨c.1, pr.1, none, pr.2⟩
      | some a => if a = pr.2 then none else some ⟨c.1, pr.1, some a, pr.2⟩).flatten

/-- One (policy entry, track) step of the `--fix` loop: a present, wrong
value is repaired by exact substring replacement of `OPT=actual` with
`OPT=required` in the track's current raw text — when that substring
occurs — and the file is rewritten; nothing else is touched. -/
def fixPairStep (cfg : List (Str × Str)) (i : Nat) (opt req : Str)
    (st : List (Option Str) × Nat) : List (Option Str) × Nat :=
  match dget cfg opt with
  | none => st
  | some a =>
    if a = req then st
    else
      match st.1.getD i none with
      | none => st
      | some text =>
        if isSub (opt ++ '=' :: a) text then
          (st.1.set i (some (replaceAll (opt ++ '=' :: a) (opt ++ '=' :: req) text)), st.2 + 1)
        else st

/-- The full `--fix` loop over sorted policy entries and loaded tracks. -/
def fixLoop (cfgs : List (Nat × List (Str × Str))) (pol : List (Str × Str))
    (tracks : List (Option Str)) : List (Option Str) × Nat :=
  (sortByKey pol).foldl
    (fun st pr => cfgs.foldl (fun st2 c => fixPairStep c.2 c.1 pr.1 pr.2 st2) st)
    (tracks, 0)

/-- The union of Sky1-specific options across the loaded tracks, sorted. -/
def sky1Opts (cfgs : List (Nat × List (Str × Str))) : List Str :=
  sortStrs (((cfgs.map fun c => (c.2.map (·.1)).filter is_sky1_option).flatten).dedup)

/-- The divergence counters of the report: options whose per-track values
(with a `-` placeholder for absent) are not all equal, and the total. -/
def divergenceCounts (cfgs : List (Nat × List (Str × Str))) : Nat × Nat :=
  let opts := sky1Opts cfgs
  ((opts.filter fun o =>
      ((cfgs.map fun c => (dget c.2 o).getD (strLit "-")).dedup.length > 1)).length,
   opts.length)

/-- `cmd_reconcile(fix)`: load the existing tracks; with fewer than two,
report and exit 0 immediately.  Otherwise check the policy, optionally fix
MISMATCH violations in place, tabulate Sky1 divergence, and exit 1 exactly
when violations were found and fix mode is off. -/
def cmd_reconcile (fs : RFS) (fix : Bool) : RecResult :=
  let cfgs := loadConfigs fs
  if cfgs.length < 2 then ⟨fs, 0, [], 0, 0, 0⟩
  else
    let pol := policyOf fs
    let viols := if pol.isEmpty then [] else reconcileViolations cfgs pol
    let st := if !pol.isEmpty && !viols.isEmpty && fix then fixLoop cfgs pol fs.tracks
              else (fs.tracks, 0)
    let dv := divergenceCounts cfgs
    ⟨⟨st.1, fs.policy⟩, if !viols.isEmpty && !fix then 1 else 0, viols, st.2, dv.1, dv.2⟩

/-- `cmd_review`'s NEW-option set: keys of `new` absent from `old`, not
ignored, sorted by option name. -/
def reviewAdded (old nw : List (Str × Str)) : List (Str × Str) :=
  sortByKey (nw.filter fun kv => (dget old kv.1).isNone && !is_ignored (kv.1 ++ '=' :: kv.2))

/-- `by_category[cat].append(kv)` on an insertion-ordered bucket list. -/
def bucketAdd (acc : List (Str × List (Str × Str))) (cat : Str) (kv : Str × Str) :
    List (Str × List (Str × Str)) :=
  if acc.any (fun b => b.1 == cat) then
    acc.map fun b => if b.1 == cat then (b.1, b.2 ++ [kv]) else b
  else acc ++ [(cat, [kv])]

/-- Group the sorted NEW options by `categorize_option`. -/
def bucketize (ps : List (Str × Str)) : List (Str × List (Str × Str)) :=
  ps.foldl (fun acc kv => bucketAdd acc (categorize_option kv.1) kv) []

/-- The fixed display priority of `cmd_review`'s NEW-option report. -/
def PRIORITY_CATS : List Str :=
  [strLit "Sky1", strLit "Display/GPU", strLit "Audio", strLit "USB", strLit "PCI",
   strLit "PHY", strLit "Network"]

/-- The NEW-option buckets of the review report, in display order:
priority categories first (those present), then the remaining categories
sorted by name. -/
def reviewAddedBuckets (old nw : List (Str × Str)) : List (Str × List (Str × Str)) :=
  let b := bucketize (reviewAdded old nw)
  (PRIORITY_CATS.filterMap fun c => b.find? (fun p => p.1 == c)) ++
    sortByKey (b.filter fun p => !(PRIORITY_CATS.any (· == p.1)))

-- Sanity checks against the Python behaviour.
example : parse_config (strLit "CONFIG_A=y\n# CONFIG_B is not set\njunk\n") =
    [(strLit "CONFIG_A", strLit "y"), (strLit "CONFIG_B", strLit "n")] := by decide
example : parsePolicy (strLit "[a]\nFOO=y\n[b]\nFOO=n\n") =
    [(strLit "CONFIG_FOO", strLit "n")] := by decide
example : categorize_option (strLit "CONFIG_DRM_PANTHOR") = strLit "Display/GPU" := by decide
example : is_sky1_option (strLit "CONFIG_DRM_PANTHOR") = true := by decide
example : is_sky1_option (strLit "CONFIG_NET_FOO") = false := by decide

/-!
## `scripts/manage-config.py`: the command layer over a modelled filesystem
-/

/-- The filesystem `manage-config.py` touches: the four `TRACK_CONFIGS`
(`none` = missing), the dev build copies found by `find_dev_configs` (these
exist, as glob results: name and content), the policy file and the README. -/
structure FS where
  tracks : List (Option Str)
  devs : List (Str × Str)
  policy : Option Str
  readme : Option Str
deriving DecidableEq

/-- A file a `ChangeRecord` targets. -/
inductive FileTarget where
  | track (i : Nat)
  | dev (i : Nat)
  | policyFile
  | readmeFile
deriving DecidableEq

/-- `path.write_text(new_text)` on the modelled filesystem. -/
def writeFS (fs : FS) : FileTarget → Str → FS
  | .track i, c => { fs with tracks := fs.tracks.set i (some c) }
  | .dev i, c => { fs with devs := fs.devs.set i ((fs.devs.getD i ([], [])).1, c) }
  | .policyFile, c => { fs with policy := some c }
  | .readmeFile, c => { fs with readme := some c }

/-- Apply every recorded change in order (the `if apply:` loop). -/
def applyChanges (fs : FS) (cs : List (FileTarget × Str)) : FS :=
  cs.foldl (fun f c => writeFS f c.1 c.2) fs

/-- One track of `cmd_set`'s track pass: a missing track is skipped; a
track where `set_config_line` reports a change contributes a
`ChangeRecord`; an `re.error` raised by `set_config_line` aborts the
command (`none`). -/
def trackStep (opt v : Str) (acc : Option (List (FileTarget × Str))) (p : Nat × Option Str) :
    Option (List (FileTarget × Str)) :=
  match acc with
  | none => none
  | some cs =>
    match p.2 with
    | none => some cs
    | some text =>
      match set_config_line text opt v with
      | none => none
      | some r => some (if r.2 then cs ++ [(FileTarget.track p.1, r.1)] else cs)

/-- `cmd_set`'s track-config pass. -/
def trackChanges (fs : FS) (opt v : Str) : Option (List (FileTarget × Str)) :=
  fs.tracks.enum.foldl (trackStep opt v) (some [])

/-- One dev copy of `cmd_set`'s dev pass (dev copies always exist — they
are glob results). -/
def devStep (opt v : Str) (acc : Option (List (FileTarget × Str))) (p : Nat × Str × Str) :
    Option (List (FileTarget × Str)) :=
  match acc with
  | none => none
  | some cs =>
    match set_config_line p.2.2 opt v with
    | none => none
    | some r => some (if r.2 then cs ++ [(FileTarget.dev p.1, r.1)] else cs)

/-- `cmd_set`'s dev-copy pass. -/
def devChanges (fs : FS) (opt v : Str) : Option (List (FileTarget × Str)) :=
  fs.devs.enum.foldl (devStep opt v) (some [])

/-- `cmd_set`'s policy pass: skipped when no (truthy) `--policy` section is
given; otherwise `POLICY_FILE.read_text()` is called unguarded, so a
missing policy file raises (`none`). -/
def policyChanges (fs : FS) (opt v : Str) (ps : Option Str) :
    Option (List (FileTarget × Str)) :=
  match ps with
  | none => some []
  | some sect =>
    if sect = [] then some []
    else
      match fs.policy with
      | none => none
      | some text =>
        let r := set_policy_entry text opt v sect
        some (if r.2 then [(.policyFile, r.1)] else [])

/-- `cmd_set`'s README pass: runs only when heading, type and description
are all given and truthy; `README_FILE.read_text()` is unguarded, so a
missing README raises (`none`). -/
def docChanges (fs : FS) (opt : Str) (doc : Option (Str × Str × Str)) :
    Option (List (FileTarget × Str)) :=
  match doc with
  | none => some []
  | some (h, ty, d) =>
    if h = [] ∨ ty = [] ∨ d = [] then some []
    else
      match fs.readme with
      | none => none
      | some text =>
        let r := add_readme_entry text opt h ty d
        some (if r.2 then [(.readmeFile, r.1)] else [])

/-- The tail of `cmd_set`/`cmd_remove`: report "nothing to do" on an empty
plan, otherwise write every recorded change only under `--apply`; the exit
status is 0 either way. -/
def finishChanges (fs : FS) (changes : List (FileTarget × Str)) (app : Bool) : FS × Nat :=
  if changes = [] then (fs, 0)
  else (if app then applyChanges fs changes else fs, 0)

/-- `cmd_set(option, value, policy_section, doc args, apply)`: plan the
changes over all stores (tracks, then dev copies, then policy, then
README — an exception in an earlier pass prevents the later ones), print
them, and write them only under `--apply`.  Returns `none` when an
unguarded read or a replacement-template parse raises, else
`some (fs', exit)`. -/
def cmd_set (fs : FS) (o v : Str) (ps : Option Str) (doc : Option (Str × Str × Str))
    (app : Bool) : Option (FS × Nat) :=
  let opt := normalize_option o
  match trackChanges fs opt v with
  | none => none
  | some tc =>
    match devChanges fs opt v with
    | none => none
    | some dvc =>
      match policyChanges fs opt v ps with
      | none => none
      | some pc =>
        match docChanges fs opt doc with
        | none => none
        | some dc => some (finishChanges fs (tc ++ dvc ++ pc ++ dc) app)

/-- `cmd_remove(option, policy, doc, apply)`: both reads are guarded by
existence checks, so it never raises. -/
def cmd_remove (fs : FS) (o : Str) (pol doc app : Bool) : Option (FS × Nat) :=
  let opt := normalize_option o
  let pc := if pol then
      match fs.policy with
      | none => []
      | some t =>
        let r := remove_policy_entry t opt
        if r.2 then [(FileTarget.policyFile, r.1)] else []
    else []
  let dc := if doc then
      match fs.readme with
      | none => []
      | some t =>
        let r := remove_readme_entry t opt
        if r.2 then [(FileTarget.readmeFile, r.1)] else []
    else []
  some (finishChanges fs (pc ++ dc) app)

/-- `cmd_show(option)`: every read is guarded by an existence check; the
gathered display data is returned together with the constant exit 0. -/
def cmd_show (fs : FS) (o : Str) :
    Option (Nat × List (Option (Option Str)) × List (Option Str) × Option (Str × Str) × Option Str) :=
  let opt := normalize_option o
  some (0,
    fs.tracks.map (fun t => t.map fun text => get_config_value text opt),
    fs.devs.map (fun d => get_config_value d.2 opt),
    (match fs.policy with
     | none => none
     | some t => get_policy_entry t opt),
    (match fs.readme with
     | none => none
     | some t => get_readme_entry t opt))

-- Sanity checks.
example : cmd_set ⟨[some (strLit "CONFIG_A=y\n"), none, none, none], [], none, none⟩
    (strLit "A") (strLit "m") none none false =
    some (⟨[some (strLit "CONFIG_A=y\n"), none, none, none], [], none, none⟩, 0) := by decide
example : cmd_set ⟨[some (strLit "CONFIG_A=y\n"), none, none, none], [], none, none⟩
    (strLit "A") (strLit "m") none none true =
    some (⟨[some (strLit "CONFIG_A=m\n"), none, none, none], [], none, none⟩, 0) := by decide
example : cmd_set ⟨[none, none, none, none], [], none, none⟩
    (strLit "A") (strLit "m") (some (strLit "usb")) none false = none := by decide

/-- The two-track scenario of the spec: policy `{NET_FOO: "y"}`, LTS lacks
the option, RC carries `CONFIG_NET_FOO=n`. -/
def rfsScenario : RFS :=
  ⟨[some (strLit "CONFIG_OTHER=y\n"), none, some (strLit "CONFIG_NET_FOO=n\n"), none],
   some (strLit "[net]\nNET_FOO=y\n")⟩

example : (cmd_reconcile rfsScenario false).violations =
    [⟨0, strLit "CONFIG_NET_FOO", none, strLit "y"⟩,
     ⟨2, strLit "CONFIG_NET_FOO", some (strLit "n"), strLit "y"⟩] := by decide
example : (cmd_reconcile rfsScenario false).exitCode = 1 := by decide
example : (cmd_reconcile rfsScenario true).exitCode = 0 := by decide
example : (cmd_reconcile rfsScenario true).fs.tracks =
    [some (strLit "CONFIG_OTHER=y\n"), none, some (strLit "CONFIG_NET_FOO=y\n"), none] := by decide
example : (cmd_reconcile rfsScenario true).fixedCount = 1 := by decide

/-- A one-track filesystem: `cmd_reconcile` refuses to compare. -/
def rfsOneTrack : RFS :=
  ⟨[some (strLit "CONFIG_NET_FOO=n\n"), none, none, none], some (strLit "[net]\nNET_FOO=y\n")⟩

/-- A small filesystem with one track for dry-run witnesses. -/
def fsOneTrack : FS := ⟨[some (strLit "CONFIG_A=y\n"), none, none, none], [], none, none⟩

/-- A filesystem with no files at all. -/
def fsEmpty : FS := ⟨[none, none, none, none], [], none, none⟩

/-- A filesystem whose policy file exists (empty text). -/
def fsWithPolicy : FS := ⟨[none, none, none, none], [], some [], none⟩

theorem splitNlCore_no_nl {l : Str} (h : '\n' ∉ l) : splitNlCore l = (l, []) := by
  induction l with
  | nil => rfl
  | cons c cs ih =>
    have hc : c ≠ '\n' := fun hc => h (hc ▸ List.mem_cons_self c cs)
    have : '\n' ∉ cs := fun hm => h (List.mem_cons_of_mem c hm)
    simp [splitNlCore, ih this, hc]

theorem splitNl_single {l : Str} (h : '\n' ∉ l) : splitNl l = [l] := by
  simp [splitNl, splitNlCore_no_nl h]

theorem splitNlCore_append_nl {a : Str} (r : Str) (h : '\n' ∉ a) :
    splitNlCore (a ++ '\n' :: r) = (a, splitNl r) := by
  induction a with
  | nil => simp [splitNlCore, splitNl]
  | cons c cs ih =>
    have hc : c ≠ '\n' := fun hc => h (hc ▸ List.mem_cons_self c cs)
    have : '\n' ∉ cs := fun hm => h (List.mem_cons_of_mem c hm)
    simp [splitNlCore, ih this, hc]

theorem splitNl_append_nl {a : Str} (r : Str) (h : '\n' ∉ a) :
    splitNl (a ++ '\n' :: r) = a :: splitNl r := by
  simp [splitNl, splitNlCore_append_nl r h, splitNlCore]

theorem joinNl_splitNl (s : Str) : joinNl (splitNl s) = s := by
  induction s with
  | nil => rfl
  | cons c cs ih =>
    by_cases hc : c = '\n'
    · subst hc
      have : splitNl ('\n' :: cs) = [] :: splitNl cs := by
        simp [splitNl, splitNlCore]
      rw [this]
      have : joinNl ([] :: splitNl cs) = '\n' :: joinNl (splitNl cs) := by
        simp only [splitNl, joinNl]
        rfl
      rw [this, ih]
    · have hcore : splitNlCore (c :: cs) = (c :: (splitNlCore cs).1, (splitNlCore cs).2) := by
        simp [splitNlCore, hc]
      show joinNl ((splitNlCore (c :: cs)).1 :: (splitNlCore (c :: cs)).2) = c :: cs
      rw [hcore]
      rcases h2 : (splitNlCore cs).2 with _ | ⟨x, xs⟩
      · have hih := ih
        rw [show splitNl cs = (splitNlCore cs).1 :: (splitNlCore cs).2 from rfl, h2] at hih
        have h1 : joinNl [(splitNlCore cs).1] = (splitNlCore cs).1 := rfl
        rw [h1] at hih
        show joinNl [c :: (splitNlCore cs).1] = c :: cs
        rw [show joinNl [c :: (splitNlCore cs).1] = c :: (splitNlCore cs).1 from rfl, hih]
      · have hih := ih
        rw [show splitNl cs = (splitNlCore cs).1 :: (splitNlCore cs).2 from rfl, h2] at hih
        show joinNl ((c :: (splitNlCore cs).1) :: x :: xs) = c :: cs
        rw [show joinNl ((c :: (splitNlCore cs).1) :: x :: xs) =
            (c :: (splitNlCore cs).1) ++ '\n' :: joinNl (x :: xs) from rfl]
        rw [show joinNl ((splitNlCore cs).1 :: x :: xs) =
            (splitNlCore cs).1 ++ '\n' :: joinNl (x :: xs) from rfl] at hih
        rw [List.cons_append, hih]

theorem splitNl_joinNl {ls : List Str} (h : ∀ l ∈ ls, '\n' ∉ l) (hne : ls ≠ []) :
    splitNl (joinNl ls) = ls := by
  induction ls with
  | nil => exact absurd rfl hne
  | cons l rest ih =>
    rcases rest with _ | ⟨l₂, ls'⟩
    · exact splitNl_single (h l (List.mem_cons_self l []))
    · have hl : '\n' ∉ l := h l (List.mem_cons_self l _)
      have hrest : ∀ x ∈ l₂ :: ls', '\n' ∉ x := fun x hx => h x (List.mem_cons_of_mem l hx)
      show splitNl (l ++ '\n' :: joinNl (l₂ :: ls')) = l :: l₂ :: ls'
      rw [splitNl_append_nl _ hl, ih hrest (by simp)]

theorem splitNl_joinNl_nl {ls : List Str} (h : ∀ l ∈ ls, '\n' ∉ l) (hne : ls ≠ []) :
    splitNl (joinNl ls ++ ['\n']) = ls ++ [[]] := by
  induction ls with
  | nil => exact absurd rfl hne
  | cons l rest ih =>
    rcases rest with _ | ⟨l₂, ls'⟩
    · have hl : '\n' ∉ l := h l (List.mem_cons_self l [])
      show splitNl (l ++ ['\n']) = [l, []]
      have : (['\n'] : Str) = '\n' :: ([] : Str) := rfl
      rw [this, splitNl_append_nl _ hl]
      rfl
    · have hl : '\n' ∉ l := h l (List.mem_cons_self l _)
      have hrest : ∀ x ∈ l₂ :: ls', '\n' ∉ x := fun x hx => h x (List.mem_cons_of_mem l hx)
      show splitNl ((l ++ '\n' :: joinNl (l₂ :: ls')) ++ ['\n']) = (l :: l₂ :: ls') ++ [[]]
      rw [List.append_assoc, List.cons_append, splitNl_append_nl _ hl, ih hrest (by simp)]
      rfl

theorem lbFree_iff {l : Str} : lbFree l = true ↔ ∀ c ∈ l, pyLineBreak c = false := by
  simp [lbFree, List.all_eq_true]

theorem lbFree_mem {l : Str} (h : lbFree l = true) {c : Char} (hc : c ∈ l) :
    pyLineBreak c = false := lbFree_iff.mp h c hc

theorem lbFree_no_nl {l : Str} (h : lbFree l = true) : '\n' ∉ l := by
  intro hm
  exact absurd (lbFree_mem h hm) (by decide)

theorem lbFree_append2 {a b : Str} (ha : lbFree a = true) (hb : lbFree b = true) :
    lbFree (a ++ b) = true :=
  lbFree_iff.mpr fun c hc =>
    (List.mem_append.mp hc).elim (lbFree_iff.mp ha c) (lbFree_iff.mp hb c)

theorem lbFree_cons2 {c : Char} {l : Str} (hc : pyLineBreak c = false) (hl : lbFree l = true) :
    lbFree (c :: l) = true :=
  lbFree_iff.mpr fun d hd => by
    rcases List.mem_cons.mp hd with h | h
    · rw [h]; exact hc
    · exact lbFree_iff.mp hl d h

theorem lbFree_reverse {l : Str} (h : lbFree l = true) : lbFree l.reverse = true :=
  lbFree_iff.mpr fun c hc => lbFree_iff.mp h c (List.mem_reverse.mp hc)

theorem pyGo_nil (skip : Bool) (acc : Str) :
    pySplitlinesGo skip [] acc = if acc = [] then [] else [acc.reverse] := by
  cases skip <;> rfl

theorem pyGo_cons (skip : Bool) (c : Char) (rest acc : Str) :
    pySplitlinesGo skip (c :: rest) acc =
      if skip && c == '\n' then pySplitlinesGo false rest acc
      else if c == '\r' then acc.reverse :: pySplitlinesGo true rest []
      else if pyLineBreak c then acc.reverse :: pySplitlinesGo false rest []
      else pySplitlinesGo false rest (c :: acc) := by
  cases skip <;> rfl

theorem pyGo_cons_lit {c : Char} (hc : pyLineBreak c = false) (rest acc : Str) :
    pySplitlinesGo false (c :: rest) acc = pySplitlinesGo false rest (c :: acc) := by
  have hr : (c == '\r') = false := by
    cases hb : c == '\r'
    · rfl
    · exact absurd hc (by simp [pyLineBreak, hb])
  rw [pyGo_cons, Bool.false_and, if_neg (by simp), if_neg (by simp [hr]),
    if_neg (by simp [hc])]

theorem pyGo_cons_nl (rest acc : Str) :
    pySplitlinesGo false ('\n' :: rest) acc = acc.reverse :: pySplitlinesGo false rest [] := by
  rw [pyGo_cons, Bool.false_and, if_neg (by simp), if_neg (by decide), if_pos (by decide)]

theorem pyGo_chunk {l : Str} (hl : lbFree l = true) (rest acc : Str) :
    pySplitlinesGo false (l ++ '\n' :: rest) acc =
      (acc.reverse ++ l) :: pySplitlinesGo false rest [] := by
  induction l generalizing acc with
  | nil => simpa using pyGo_cons_nl rest acc
  | cons c cs ih =>
    have hc : pyLineBreak c = false := lbFree_mem hl (List.mem_cons_self c cs)
    have hcs : lbFree cs = true :=
      lbFree_iff.mpr fun d hd => lbFree_mem hl (List.mem_cons_of_mem c hd)
    rw [List.cons_append, pyGo_cons_lit hc, ih hcs]
    simp

theorem pySplitlines_joinNl_nl {ls : List Str} (h : ∀ l ∈ ls, lbFree l = true)
    (hne : ls ≠ []) : pySplitlines (joinNl ls ++ ['\n']) = ls := by
  induction ls with
  | nil => exact absurd rfl hne
  | cons l rest ih =>
    rcases rest with _ | ⟨l₂, ls'⟩
    · show pySplitlinesGo false (l ++ ['\n']) [] = [l]
      rw [show (['\n'] : Str) = '\n' :: ([] : Str) from rfl,
        pyGo_chunk (h l (List.mem_cons_self l [])) [] []]
      simp [pyGo_nil]
    · have hl : lbFree l = true := h l (List.mem_cons_self l _)
      have hrest : ∀ x ∈ l₂ :: ls', lbFree x = true :=
        fun x hx => h x (List.mem_cons_of_mem l hx)
      show pySplitlinesGo false ((l ++ '\n' :: joinNl (l₂ :: ls')) ++ ['\n']) [] =
        l :: l₂ :: ls'
      rw [List.append_assoc, List.cons_append, pyGo_chunk hl]
      rw [show pySplitlinesGo false (joinNl (l₂ :: ls') ++ ['\n']) [] =
        pySplitlines (joinNl (l₂ :: ls') ++ ['\n']) from rfl]
      rw [ih hrest (by simp)]
      simp

theorem pyGo_mem_lbFree {s : Str} :
    ∀ {skip : Bool} {acc l : Str}, lbFree acc = true →
      l ∈ pySplitlinesGo skip s acc → lbFree l = true := by
  induction s with
  | nil =>
    intro skip acc l hacc h
    rw [pyGo_nil] at h
    by_cases ha : acc = []
    · rw [if_pos ha] at h; simp at h
    · rw [if_neg ha, List.mem_singleton] at h
      rw [h]
      exact lbFree_reverse hacc
  | cons c rest ih =>
    intro skip acc l hacc h
    rw [pyGo_cons] at h
    by_cases h1 : (skip && c == '\n') = true
    · rw [if_pos h1] at h
      exact ih hacc h
    · rw [if_neg h1] at h
      by_cases h2 : (c == '\r') = true
      · rw [if_pos h2] at h
        rcases List.mem_cons.mp h with he | hm
        · rw [he]; exact lbFree_reverse hacc
        · exact ih (show lbFree [] = true from rfl) hm
      · rw [if_neg h2] at h
        by_cases h3 : pyLineBreak c = true
        · rw [if_pos h3] at h
          rcases List.mem_cons.mp h with he | hm
          · rw [he]; exact lbFree_reverse hacc
          · exact ih (show lbFree [] = true from rfl) hm
        · rw [if_neg h3] at h
          have hc : pyLineBreak c = false := by rwa [Bool.not_eq_true] at h3
          exact ih (lbFree_cons2 hc hacc) h

theorem mem_pySplitlines_lbFree {s l : Str} (h : l ∈ pySplitlines s) : lbFree l = true :=
  pyGo_mem_lbFree (show lbFree [] = true from rfl) h

theorem mem_splitNl_no_nl {s l : Str} (h : l ∈ splitNl s) : '\n' ∉ l := by
  induction s generalizing l with
  | nil =>
    simp only [splitNl, splitNlCore, List.mem_singleton] at h
    subst h; simp
  | cons c cs ih =>
    by_cases hc : c = '\n'
    · subst hc
      have : splitNl ('\n' :: cs) = [] :: splitNl cs := by simp [splitNl, splitNlCore]
      rw [this] at h
      rcases List.mem_cons.mp h with h | h
      · subst h; simp
      · exact ih h
    · have : splitNl (c :: cs) = (c :: (splitNlCore cs).1) :: (splitNlCore cs).2 := by
        simp [splitNl, splitNlCore, hc]
      rw [this] at h
      rcases List.mem_cons.mp h with h | h
      · subst h
        intro hm
        rcases List.mem_cons.mp hm with h | h
        · exact hc h.symm
        · exact ih (List.mem_cons_self _ _ : (splitNlCore cs).1 ∈ splitNl cs) h
      · exact ih (List.mem_cons_of_mem _ h)

theorem joinNl_append {A B : List Str} (hA : A ≠ []) (hB : B ≠ []) :
    joinNl (A ++ B) = joinNl A ++ '\n' :: joinNl B := by
  induction A with
  | nil => exact absurd rfl hA
  | cons x A' ih =>
    rcases A' with _ | ⟨y, A''⟩
    · rcases B with _ | ⟨b, B'⟩
      · exact absurd rfl hB
      · simp [joinNl]
    · have hih := ih (by simp)
      show joinNl (x :: ((y :: A'') ++ B)) = (x ++ '\n' :: joinNl (y :: A'')) ++ '\n' :: joinNl B
      rcases B with _ | ⟨b, B'⟩
      · exact absurd rfl hB
      · rw [show joinNl (x :: ((y :: A'') ++ (b :: B'))) =
            x ++ '\n' :: joinNl ((y :: A'') ++ (b :: B')) from rfl, hih]
        simp [List.append_assoc]

theorem dropWhile_append_eq {a b : Str} {x : Char} (h : ∀ c ∈ a, c ≠ x) :
    (a ++ x :: b).dropWhile (· != x) = x :: b := by
  induction a with
  | nil => simp [List.dropWhile_cons]
  | cons c cs ih =>
    have hc : (c != x) = true := by
      simpa using h c (List.mem_cons_self c cs)
    simp only [List.cons_append, List.dropWhile_cons, hc, if_pos]
    exact ih fun d hd => h d (List.mem_cons_of_mem c hd)

theorem isSub_nil (s : Str) : isSub [] s = true := by
  cases s <;> simp [isSub]

theorem isSub_append_left {n a : Str} (b : Str) (h : isSub n a = true) :
    isSub n (a ++ b) = true := by
  induction a with
  | nil =>
    simp only [isSub, List.isEmpty_iff] at h
    subst h
    simpa using isSub_nil b
  | cons c cs ih =>
    simp only [isSub, Bool.or_eq_true] at h
    rcases h with h | h
    · rw [List.cons_append, isSub]
      rw [List.isPrefixOf_iff_prefix] at h
      have h2 : n <+: c :: (cs ++ b) := by
        simpa using h.trans (List.prefix_append (c :: cs) b)
      simp [List.isPrefixOf_iff_prefix, h2]
    · rw [List.cons_append, isSub]
      simp [ih h]

theorem isSub_append_right {n b : Str} (a : Str) (h : isSub n b = true) :
    isSub n (a ++ b) = true := by
  induction a with
  | nil => simpa using h
  | cons c cs ih =>
    rw [List.cons_append, isSub]
    simp [ih]

theorem mem_splitNl_decomp {s l : Str} (h : l ∈ splitNl s) :
    ∃ pre post : Str, s = pre ++ l ++ post := by
  obtain ⟨A, B, hAB⟩ := List.append_of_mem h
  have hs : s = joinNl (A ++ l :: B) := by
    conv_lhs => rw [← joinNl_splitNl s]
    rw [hAB]
  rcases A with _ | ⟨a, A'⟩
  · rcases B with _ | ⟨b, B'⟩
    · exact ⟨[], [], by simpa using hs⟩
    · refine ⟨[], '\n' :: joinNl (b :: B'), ?_⟩
      simpa using hs
  · have hA : (a :: A' : List Str) ≠ [] := by simp
    rcases B with _ | ⟨b, B'⟩
    · rw [joinNl_append hA (by simp)] at hs
      exact ⟨joinNl (a :: A') ++ ['\n'], [], by simpa [List.append_assoc] using hs⟩
    · rw [joinNl_append hA (by simp)] at hs
      refine ⟨joinNl (a :: A') ++ ['\n'], '\n' :: joinNl (b :: B'), ?_⟩
      rw [show joinNl (l :: b :: B') = l ++ '\n' :: joinNl (b :: B') from rfl] at hs
      simpa [List.append_assoc] using hs

theorem isSub_of_mem_splitNl {n s l : Str} (hm : l ∈ splitNl s) (h : isSub n l = true) :
    isSub n s = true := by
  obtain ⟨pre, post, hd⟩ := mem_splitNl_decomp hm
  rw [hd, List.append_assoc]
  exact isSub_append_right pre (isSub_append_left post h)

theorem findIdxP_some {p : Str → Bool} {ls : List Str} {i : Nat}
    (h : findIdxP p ls = some i) :
    i < ls.length ∧ p (ls.getD i []) = true ∧ ∀ l ∈ ls.take i, p l = false := by
  induction ls generalizing i with
  | nil => simp [findIdxP] at h
  | cons l rest ih =>
    rw [findIdxP] at h
    by_cases hp : p l
    · simp only [hp, if_pos, Option.some.injEq] at h
      subst h
      refine ⟨by simp, by simpa using hp, by simp⟩
    · simp only [hp, Bool.false_eq_true, if_false, Option.map_eq_some'] at h
      obtain ⟨j, hj, hij⟩ := h
      subst hij
      obtain ⟨h1, h2, h3⟩ := ih hj
      refine ⟨by simpa using h1, by simpa using h2, ?_⟩
      intro x hx
      rw [List.take_succ_cons] at hx
      rcases List.mem_cons.mp hx with he | hm
      · subst he; simpa using hp
      · exact h3 x hm

theorem set_eq_decomp {ls : List Str} {i : Nat} (e : Str) (h : i < ls.length) :
    ls.set i e = ls.take i ++ e :: ls.drop (i + 1) := by
  induction ls generalizing i with
  | nil => simp at h
  | cons l rest ih =>
    cases i with
    | zero => simp
    | succ j =>
      simp only [List.set_cons_succ, List.take_succ_cons, List.drop_succ_cons, List.cons_append]
      rw [ih (by simpa using h)]

theorem self_eq_decomp {ls : List Str} {i : Nat} (h : i < ls.length) :
    ls = ls.take i ++ ls.getD i [] :: ls.drop (i + 1) := by
  induction ls generalizing i with
  | nil => simp at h
  | cons l rest ih =>
    cases i with
    | zero => simp
    | succ j =>
      simp only [List.getD_cons_succ, List.take_succ_cons, List.drop_succ_cons, List.cons_append]
      exact congrArg (l :: ·) (ih (by simpa using h))

theorem finishChanges_fst_false (fs : FS) (cs : List (FileTarget × Str)) :
    (finishChanges fs cs false).1 = fs := by
  unfold finishChanges
  split <;> rfl

theorem not_mem_append {c : Char} {a b : Str} (ha : c ∉ a) (hb : c ∉ b) : c ∉ a ++ b := by
  intro hm
  rcases List.mem_append.mp hm with h | h
  · exact ha h
  · exact hb h

theorem noBs_configNewLine {o v : Str} (ho : '\\' ∉ o) (hv : '\\' ∉ v) :
    '\\' ∉ configNewLine o v := by
  unfold configNewLine
  split
  · refine not_mem_append (not_mem_append ?_ ho) ?_ <;> decide
  · refine not_mem_append (not_mem_append (not_mem_append ?_ ho) ?_) hv <;> decide

theorem parseTemplateFuel_no_bs (n : Nat) {s : Str} {fuel : Nat} (hbs : '\\' ∉ s)
    (hf : s.length < fuel) :
    parseTemplateFuel n fuel s = some (s.map TplPiece.lit) := by
  induction s generalizing fuel with
  | nil =>
    cases fuel with
    | zero => omega
    | succ f => rfl
  | cons c cs ih =>
    cases fuel with
    | zero => simp at hf
    | succ f =>
      have hc : c ≠ '\\' := fun he => hbs (he ▸ List.mem_cons_self c cs)
      have hcs : '\\' ∉ cs := fun hm => hbs (List.mem_cons_of_mem c hm)
      have hlen : cs.length < f := by
        rw [List.length_cons] at hf
        omega
      rw [show parseTemplateFuel n (f + 1) (c :: cs) =
          (parseTemplateFuel n f cs).map (fun l => TplPiece.lit c :: l) from by
        rw [parseTemplateFuel.eq_def]
        dsimp only
        rw [if_neg hc]]
      rw [ih hcs hlen]
      rfl

theorem parseTemplate_no_bs (n : Nat) {s : Str} (hbs : '\\' ∉ s) :
    parseTemplate n s = some (s.map TplPiece.lit) :=
  parseTemplateFuel_no_bs n hbs (Nat.lt_succ_self _)

theorem set_config_line_isSome (t : Str) {o v : Str} (hbo : '\\' ∉ o) (hbv : '\\' ∉ v) :
    (set_config_line t o v).isSome = true := by
  unfold set_config_line
  rw [parseTemplate_no_bs 0 (noBs_configNewLine hbo hbv)]
  split
  · rfl
  · split
    · rfl
    · rfl

theorem mem_normalize_option {c : Char} {o : Str} (h : c ∈ normalize_option o) : c ∈ o := by
  unfold normalize_option at h
  split at h
  · exact List.drop_subset _ _ h
  · exact h

theorem foldl_trackStep_isSome {opt v : Str} (hbo : '\\' ∉ opt) (hbv : '\\' ∉ v) :
    ∀ (l : List (Nat × Option Str)) (cs : List (FileTarget × Str)),
      ((l.foldl (trackStep opt v) (some cs)).isSome) = true := by
  intro l
  induction l with
  | nil => intro cs; rfl
  | cons p rest ih =>
    intro cs
    rw [List.foldl_cons]
    rcases p with ⟨i, t⟩
    rcases t with _ | text
    · rw [show trackStep opt v (some cs) (i, none) = some cs from rfl]
      exact ih cs
    · obtain ⟨r, hr⟩ := Option.isSome_iff_exists.mp (set_config_line_isSome text hbo hbv)
      rw [show trackStep opt v (some cs) (i, some text) =
          some (if r.2 then cs ++ [(FileTarget.track i, r.1)] else cs) from by
        unfold trackStep
        dsimp only
        rw [hr]]
      exact ih _

theorem trackChanges_isSome (fs : FS) {opt v : Str} (hbo : '\\' ∉ opt) (hbv : '\\' ∉ v) :
    (trackChanges fs opt v).isSome = true :=
  foldl_trackStep_isSome hbo hbv fs.tracks.enum []

theorem foldl_devStep_isSome {opt v : Str} (hbo : '\\' ∉ opt) (hbv : '\\' ∉ v) :
    ∀ (l : List (Nat × Str × Str)) (cs : List (FileTarget × Str)),
      ((l.foldl (devStep opt v) (some cs)).isSome) = true := by
  intro l
  induction l with
  | nil => intro cs; rfl
  | cons p rest ih =>
    intro cs
    rw [List.foldl_cons]
    obtain ⟨r, hr⟩ := Option.isSome_iff_exists.mp (set_config_line_isSome p.2.2 hbo hbv)
    rw [show devStep opt v (some cs) p =
        some (if r.2 then cs ++ [(FileTarget.dev p.1, r.1)] else cs) from by
      unfold devStep
      dsimp only
      rw [hr]]
    exact ih _

theorem devChanges_isSome (fs : FS) {opt v : Str} (hbo : '\\' ∉ opt) (hbv : '\\' ∉ v) :
    (devChanges fs opt v).isSome = true :=
  foldl_devStep_isSome hbo hbv fs.devs.enum []

/-!
## Claims
-/

/-- C10: if fewer than two of the four track config files exist on disk,
`cmd_reconcile` returns exit status 0 immediately and performs no policy
check, no divergence check, and no write — even when the single existing
track violates the policy and even under `--fix`. -/
theorem C10_reconcile_skips_below_two_tracks (fs : RFS) (fix : Bool)
    (h : (loadConfigs fs).length < 2) :
    cmd_reconcile fs fix = ⟨fs, 0, [], 0, 0, 0⟩ := by
  unfold cmd_reconcile
  simp [h]

/-- Witness for C10 at a one-track filesystem whose only track violates the
policy, under `--fix`. -/
theorem C10_reconcile_skips_below_two_tracks_witness :
    (loadConfigs rfsOneTrack).length < 2 ∧
      cmd_reconcile rfsOneTrack true = ⟨rfsOneTrack, 0, [], 0, 0, 0⟩ :=
  ⟨by decide, C10_reconcile_skips_below_two_tracks rfsOneTrack true (by decide)⟩

/-- C4 counterexample: a `--fix` run that repaired the RC MISMATCH but left
the LTS MISSING violation unresolved still exits 0 — not non-zero as the
claim states. -/
theorem C4_cx_fix_run_with_unresolved_missing_exits_zero :
    (cmd_reconcile rfsScenario true).exitCode = 0 ∧
    (cmd_reconcile rfsScenario true).violations ≠ [] ∧
    (∃ v ∈ (cmd_reconcile rfsScenario true).violations, v.actual = none) ∧
    (cmd_reconcile rfsScenario true).fixedCount = 1 ∧
    (cmd_reconcile rfsScenario true).fs.tracks.getD 0 none =
      some (strLit "CONFIG_OTHER=y\n") := by decide

/-- C4 (amended): `cmd_reconcile` exits non-zero exactly when violations
were found *and* fix mode is off; under `--fix` the exit status is always 0,
even when MISSING or unmatchable violations remain unresolved. -/
theorem C4_amended_exit_nonzero_iff_violations_and_no_fix (fs : RFS) (fix : Bool) :
    (cmd_reconcile fs fix).exitCode =
      if (cmd_reconcile fs fix).violations = [] ∨ fix = true then 0 else 1 := by
  by_cases h : (loadConfigs fs).length < 2
  · simp [cmd_reconcile, h]
  · by_cases hp : (policyOf fs).isEmpty
    · simp [cmd_reconcile, h, hp]
    · by_cases hv : reconcileViolations (loadConfigs fs) (policyOf fs) = []
      · simp [cmd_reconcile, h, hp, hv]
      · rcases fix with _ | _ <;> simp [cmd_reconcile, h, hp, hv]

/-- C1: with the apply flag omitted, neither `cmd_set` nor `cmd_remove`
writes anything: whenever the command completes, the resulting filesystem
(track configs, dev copies, policy file, README) is byte-identical to the
input, regardless of how many changes the plan computed. -/
theorem C1_dry_run_writes_nothing :
    (∀ fs o v ps doc r, cmd_set fs o v ps doc false = some r → r.1 = fs) ∧
    (∀ fs o pol doc r, cmd_remove fs o pol doc false = some r → r.1 = fs) := by
  constructor
  · intro fs o v ps doc r h
    simp only [cmd_set] at h
    split at h
    · simp at h
    · split at h
      · simp at h
      · split at h
        · simp at h
        · split at h
          · simp at h
          · injection h with h2
            rw [← h2]
            exact finishChanges_fst_false fs _
  · intro fs o pol doc r h
    simp only [cmd_remove] at h
    injection h with h2
    rw [← h2]
    exact finishChanges_fst_false fs _

/-- Witness for C1: a dry run of `set` on a track that would change, and a
dry run of `remove`, both leave the filesystem untouched. -/
theorem C1_dry_run_writes_nothing_witness :
    (cmd_set fsOneTrack (strLit "A") (strLit "m") none none false = some (fsOneTrack, 0) ∧
      (fsOneTrack, 0).1 = fsOneTrack) ∧
    (cmd_remove fsOneTrack (strLit "A") true true false = some (fsOneTrack, 0) ∧
      (fsOneTrack, 0).1 = fsOneTrack) :=
  ⟨⟨by decide, C1_dry_run_writes_nothing.1 fsOneTrack (strLit "A") (strLit "m") none none
      (fsOneTrack, 0) (by decide)⟩,
   ⟨by decide, C1_dry_run_writes_nothing.2 fsOneTrack (strLit "A") true true
      (fsOneTrack, 0) (by decide)⟩⟩

/-- C8 counterexample: `set --policy usb` with the policy file absent does
not complete normally — the unguarded `POLICY_FILE.read_text()` raises
(modelled as `none`), contradicting the claim that every combination of
missing files is non-fatal for `set`. -/
theorem C8_cx_set_policy_raises_on_missing_policy_file :
    cmd_set fsEmpty (strLit "FOO") (strLit "y") (some (strLit "usb")) none false = none ∧
    cmd_set fsEmpty (strLit "FOO") (strLit "y") none
      (some (strLit "USB Support", strLit "module", strLit "d")) false = none := by decide

/-- C8 (amended): `show` and `remove` never raise on missing files, and
`set` treats missing track files as zero changes; but `set` raises when
`--policy` is given while the policy file is absent, or when the three doc
arguments are given while the README is absent.  Under those two
preconditions — and for option and value strings free of backslashes, so
that the `re.sub` replacement template of `set_config_line` parses —
`set` also completes normally. -/
theorem C8_amended_missing_files_nonfatal_except_set_policy_doc :
    (∀ fs o, (cmd_show fs o).isSome = true) ∧
    (∀ fs o pol doc app, (cmd_remove fs o pol doc app).isSome = true) ∧
    (∀ fs o v ps doc app, '\\' ∉ o → '\\' ∉ v →
      (∀ s, ps = some s → s ≠ [] → fs.policy ≠ none) →
      (∀ h t d, doc = some (h, t, d) → ¬(h = [] ∨ t = [] ∨ d = []) → fs.readme ≠ none) →
      (cmd_set fs o v ps doc app).isSome = true) ∧
    (∀ o v app, cmd_set ⟨[none, none, none, none], [], none, none⟩ o v none none app =
      some (⟨[none, none, none, none], [], none, none⟩, 0)) := by
  refine ⟨fun fs o => rfl, fun fs o pol doc app => rfl, ?_, ?_⟩
  · intro fs o v ps doc app hbo hbv hp hd
    have hbo' : '\\' ∉ normalize_option o := fun hm => hbo (mem_normalize_option hm)
    obtain ⟨tc, htc⟩ := Option.isSome_iff_exists.mp (trackChanges_isSome fs hbo' hbv)
    obtain ⟨dvc, hdvc⟩ := Option.isSome_iff_exists.mp (devChanges_isSome fs hbo' hbv)
    have h1 : policyChanges fs (normalize_option o) v ps ≠ none := by
      unfold policyChanges
      rcases ps with _ | s
      · simp
      · by_cases hs : s = []
        · simp [hs]
        · have := hp s rfl hs
          rcases hpol : fs.policy with _ | ptext
          · exact absurd hpol this
          · simp [hs, hpol]
    have h2 : docChanges fs (normalize_option o) doc ≠ none := by
      unfold docChanges
      rcases doc with _ | ⟨h, t, d⟩
      · simp
      · by_cases he : h = [] ∨ t = [] ∨ d = []
        · simp [he]
        · have := hd h t d rfl he
          rcases hrm : fs.readme with _ | rtext
          · exact absurd hrm this
          · simp [he, hrm]
    rcases hpc : policyChanges fs (normalize_option o) v ps with _ | pc
    · exact absurd hpc h1
    · rcases hdc : docChanges fs (normalize_option o) doc with _ | dc
      · exact absurd hdc h2
      · simp only [cmd_set, htc, hdvc, hpc, hdc]
        rfl
  · intro o v app
    rfl

/-- Witness for C8 (amended): with the policy file present and
backslash-free arguments, `set --policy` completes normally. -/
theorem C8_amended_missing_files_nonfatal_except_set_policy_doc_witness :
    (cmd_set fsWithPolicy (strLit "FOO") (strLit "y") (some (strLit "usb")) none false).isSome
      = true :=
  C8_amended_missing_files_nonfatal_except_set_policy_doc.2.2.1 fsWithPolicy (strLit "FOO")
    (strLit "y") (some (strLit "usb")) none false (by decide) (by decide)
    (fun s hs _ => by cases hs; simp [fsWithPolicy])
    (fun h t d hd => by cases hd)

/-- C2: in reconcile fix mode, a MISSING violation is never repaired (the
fix step never inserts a line — it leaves the state untouched), while a
MISMATCH violation is repaired by exact substring replacement of
`OPT=actual` with `OPT=required` in the track's raw text (and only when
that substring occurs); in the spec's scenario — policy `{NET_FOO: y}`,
LTS without the option, RC carrying `CONFIG_NET_FOO=n` — reconcile reports
exactly the MISSING (LTS) and MISMATCH (RC) violations, and `--fix`
rewrites only RC's line to `=y`, leaving the LTS file untouched. -/
theorem C2_fix_repairs_mismatch_only :
    (∀ cfg i opt req st, dget cfg opt = none → fixPairStep cfg i opt req st = st) ∧
    (∀ cfg i opt req st a text, dget cfg opt = some a → a ≠ req →
      st.1.getD i none = some text → isSub (opt ++ '=' :: a) text = true →
      fixPairStep cfg i opt req st =
        (st.1.set i (some (replaceAll (opt ++ '=' :: a) (opt ++ '=' :: req) text)), st.2 + 1)) ∧
    (∀ cfg i opt req st a text, dget cfg opt = some a → a ≠ req →
      st.1.getD i none = some text → isSub (opt ++ '=' :: a) text = false →
      fixPairStep cfg i opt req st = st) ∧
    ((cmd_reconcile rfsScenario false).violations =
        [⟨0, strLit "CONFIG_NET_FOO", none, strLit "y"⟩,
         ⟨2, strLit "CONFIG_NET_FOO", some (strLit "n"), strLit "y"⟩] ∧
      (cmd_reconcile rfsScenario true).violations =
        [⟨0, strLit "CONFIG_NET_FOO", none, strLit "y"⟩,
         ⟨2, strLit "CONFIG_NET_FOO", some (strLit "n"), strLit "y"⟩] ∧
      (cmd_reconcile rfsScenario true).fs.tracks =
        [some (strLit "CONFIG_OTHER=y\n"), none, some (strLit "CONFIG_NET_FOO=y\n"), none] ∧
      (cmd_reconcile rfsScenario true).fixedCount = 1) := by
  refine ⟨?_, ?_, ?_, by decide⟩
  · intro cfg i opt req st h
    simp [fixPairStep, h]
  · intro cfg i opt req st a text h ha htext hsub
    rw [List.getD_eq_getElem?_getD] at htext
    simp [fixPairStep, h, ha, htext, hsub]
  · intro cfg i opt req st a text h ha htext hsub
    rw [List.getD_eq_getElem?_getD] at htext
    simp [fixPairStep, h, ha, htext, hsub]

/-- Witness for C2: a MISSING step is a no-op; a concrete MISMATCH with the
substring present is repaired in place. -/
theorem C2_fix_repairs_mismatch_only_witness :
    (dget [] (strLit "CONFIG_X") = none ∧
      fixPairStep [] 0 (strLit "CONFIG_X") (strLit "y") ([some []], 0) = ([some []], 0)) ∧
    fixPairStep [(strLit "CONFIG_A", strLit "n")] 0 (strLit "CONFIG_A") (strLit "y")
        ([some (strLit "CONFIG_A=n\n")], 0) = ([some (strLit "CONFIG_A=y\n")], 1) :=
  ⟨⟨rfl, C2_fix_repairs_mismatch_only.1 [] 0 (strLit "CONFIG_X") (strLit "y")
      ([some []], 0) rfl⟩,
   by
    rw [C2_fix_repairs_mismatch_only.2.1 [(strLit "CONFIG_A", strLit "n")] 0
      (strLit "CONFIG_A") (strLit "y") ([some (strLit "CONFIG_A=n\n")], 0)
      (strLit "n") (strLit "CONFIG_A=n\n") (by decide) (by decide) (by decide) (by decide)]
    decide⟩

/-- C6 counterexample: setting `USB_UAS=m` into a policy file that is
exactly an empty section `[usb]` does not produce `"[usb]\nUSB_UAS=m\n"`. -/
theorem C6_cx_empty_section_insert_text :
    (set_policy_entry (strLit "[usb]\n") (strLit "USB_UAS") (strLit "m") (strLit "usb")).1 ≠
      strLit "[usb]\nUSB_UAS=m\n" := by decide

/-- C6 (amended): a new entry is inserted as the last entry of the named
section when the section is followed by an entry, a blank line or another
header; but an empty section whose header is the last line of the file is
*not* detected — the scan leaves `insert_at = None` and the code appends a
duplicate `[usb]` section, producing `"[usb]\n\n[usb]\nUSB_UAS=m\n"`; a
missing section is appended at end-of-file (with a leading blank line). -/
theorem C6_amended_policy_insertion :
    set_policy_entry (strLit "[usb]\n") (strLit "USB_UAS") (strLit "m") (strLit "usb") =
      (strLit "[usb]\n\n[usb]\nUSB_UAS=m\n", true) ∧
    set_policy_entry (strLit "") (strLit "USB_UAS") (strLit "m") (strLit "usb") =
      (strLit "\n[usb]\nUSB_UAS=m\n", true) ∧
    set_policy_entry (strLit "[usb]\n\n") (strLit "USB_UAS") (strLit "m") (strLit "usb") =
      (strLit "[usb]\nUSB_UAS=m\n\n", true) ∧
    set_policy_entry (strLit "[usb]\nUSB_X=y\n[v]\n") (strLit "USB_UAS") (strLit "m")
        (strLit "usb") =
      (strLit "[usb]\nUSB_X=y\nUSB_UAS=m\n[v]\n", true) ∧
    set_policy_entry (strLit "[v]\nX=y\n") (strLit "USB_UAS") (strLit "m") (strLit "usb") =
      (strLit "[v]\nX=y\n\n[usb]\nUSB_UAS=m\n", true) := by decide

/-- C9 counterexample: an added `CONFIG_DRM_PANTHOR=y` is *not* placed in
the vendor-specific (Sky1) bucket of the NEW-options report — it lands in
the generic Display/GPU bucket. -/
theorem C9_cx_drm_panthor_not_in_sky1_bucket :
    categorize_option (strLit "CONFIG_DRM_PANTHOR") ≠ strLit "Sky1" ∧
    reviewAddedBuckets [] [(strLit "CONFIG_DRM_PANTHOR", strLit "y")] =
      [(strLit "Display/GPU", [(strLit "CONFIG_DRM_PANTHOR", strLit "y")])] := by decide

/-- C9 (amended): NEW-option bucketing uses only `categorize_option`, whose
ordered prefix table maps `DRM_` to Display/GPU before any Sky1 marker
prefix is tried, so `CONFIG_DRM_PANTHOR=y` is bucketed under the generic
Display/GPU category (which merely *displays* after the Sky1 slot); the
marker-substring test `is_sky1_option` would call it vendor-specific but is
not consulted for NEW-option bucketing. -/
theorem C9_amended_drm_panthor_bucketed_display_gpu :
    categorize_option (strLit "CONFIG_DRM_PANTHOR") = strLit "Display/GPU" ∧
    is_sky1_option (strLit "CONFIG_DRM_PANTHOR") = true ∧
    reviewAddedBuckets [] [(strLit "CONFIG_DRM_PANTHOR", strLit "y")] =
      [(strLit "Display/GPU", [(strLit "CONFIG_DRM_PANTHOR", strLit "y")])] ∧
    reviewAddedBuckets [] [(strLit "CONFIG_SKY1_FOO", strLit "y"),
        (strLit "CONFIG_DRM_PANTHOR", strLit "y")] =
      [(strLit "Sky1", [(strLit "CONFIG_SKY1_FOO", strLit "y")]),
       (strLit "Display/GPU", [(strLit "CONFIG_DRM_PANTHOR", strLit "y")])] := by decide

theorem noNl_configNewLine {o v : Str} (ho : '\n' ∉ o) (hv : '\n' ∉ v) :
    '\n' ∉ configNewLine o v := by
  unfold configNewLine
  split
  · refine not_mem_append (not_mem_append ?_ ho) ?_ <;> decide
  · refine not_mem_append (not_mem_append (not_mem_append ?_ ho) ?_) hv <;> decide

theorem dm_configNewLine_en {o v : Str} (hv : v ≠ strLit "n") :
    disabledMatch o (configNewLine o v) = false := by
  unfold disabledMatch configNewLine
  rw [if_neg hv]
  rw [show strLit "CONFIG_" ++ o ++ strLit "=" ++ v =
    'C' :: (strLit "ONFIG_" ++ o ++ strLit "=" ++ v) from rfl]
  rw [show strLit "# CONFIG_" ++ o ++ strLit " is not set" =
    '#' :: (strLit " CONFIG_" ++ o ++ strLit " is not set") from rfl]
  rw [beq_eq_false_iff_ne]
  intro h
  injection h with h1 h2
  exact absurd h1 (by decide)

theorem expandTpl_lit (m s : Str) : expandTpl m (s.map TplPiece.lit) = s := by
  induction s with
  | nil => rfl
  | cons c cs ih =>
    rw [List.map_cons, expandTpl, ih]

theorem set_config_line_branch_en (t o v : Str) (hbs : '\\' ∉ configNewLine o v)
    (hE : (splitNl t).any (enabledMatch o) = true) :
    set_config_line t o v =
      some (joinNl ((splitNl t).map fun c => if enabledMatch o c then configNewLine o v else c),
        decide (joinNl ((splitNl t).map fun c =>
          if enabledMatch o c then configNewLine o v else c) ≠ t)) := by
  have hmap : ((splitNl t).map fun c =>
      if enabledMatch o c then expandTpl c ((configNewLine o v).map TplPiece.lit) else c) =
      (splitNl t).map fun c => if enabledMatch o c then configNewLine o v else c :=
    List.map_congr_left fun c _ => by
      by_cases hm : enabledMatch o c = true
      · rw [if_pos hm, if_pos hm, expandTpl_lit]
      · rw [if_neg hm, if_neg hm]
  unfold set_config_line
  rw [if_pos hE, parseTemplate_no_bs 0 hbs]
  dsimp only
  rw [hmap]

theorem set_config_line_branch_dis (t o v : Str) (hbs : '\\' ∉ configNewLine o v)
    (hE : (splitNl t).any (enabledMatch o) = false)
    (hD : (splitNl t).any (disabledMatch o) = true) :
    set_config_line t o v =
      some (joinNl ((splitNl t).map fun c => if disabledMatch o c then configNewLine o v else c),
        decide (joinNl ((splitNl t).map fun c =>
          if disabledMatch o c then configNewLine o v else c) ≠ t)) := by
  have hmap : ((splitNl t).map fun c =>
      if disabledMatch o c then expandTpl c ((configNewLine o v).map TplPiece.lit) else c) =
      (splitNl t).map fun c => if disabledMatch o c then configNewLine o v else c :=
    List.map_congr_left fun c _ => by
      by_cases hm : disabledMatch o c = true
      · rw [if_pos hm, if_pos hm, expandTpl_lit]
      · rw [if_neg hm, if_neg hm]
  unfold set_config_line
  rw [if_neg (by simp [hE]), if_pos hD, parseTemplate_no_bs 0 hbs]
  dsimp only
  rw [hmap]

theorem set_config_line_branch_none (t o v : Str)
    (hE : (splitNl t).any (enabledMatch o) = false)
    (hD : (splitNl t).any (disabledMatch o) = false) :
    set_config_line t o v = some (t, false) := by
  unfold set_config_line
  rw [if_neg (by simp [hE]), if_neg (by simp [hD])]

theorem scl_map_noNl {t o v : Str} (ho : '\n' ∉ o) (hv : '\n' ∉ v) (p : Str → Bool) :
    ∀ x ∈ (splitNl t).map fun c => if p c then configNewLine o v else c, '\n' ∉ x := by
  intro x hx
  obtain ⟨c, hc, hfc⟩ := List.mem_map.mp hx
  by_cases hpc : p c = true
  · rw [← hfc, if_pos hpc]
    exact noNl_configNewLine ho hv
  · rw [← hfc, if_neg hpc]
    exact mem_splitNl_no_nl hc

theorem scl_map_ne_nil {t : Str} {f : Str → Str} : (splitNl t).map f ≠ [] := by
  simp [splitNl]

theorem getD_map_of_nil {f : Str → Str} (hf : f [] = []) (l : List Str) (i : Nat) :
    (l.map f).getD i [] = f (l.getD i []) := by
  induction l generalizing i with
  | nil => simp [hf]
  | cons x xs ih =>
    cases i with
    | zero => simp
    | succ j => simpa using ih j

theorem em_nil (o : Str) : enabledMatch o [] = false := by
  unfold enabledMatch
  rw [show strLit "CONFIG_" ++ o ++ strLit "=" =
    'C' :: (strLit "ONFIG_" ++ o ++ strLit "=") from rfl]
  rfl

theorem dm_nil (o : Str) : disabledMatch o [] = false := by
  unfold disabledMatch
  rw [show strLit "# CONFIG_" ++ o ++ strLit " is not set" =
    '#' :: (strLit " CONFIG_" ++ o ++ strLit " is not set") from rfl]
  rfl

theorem scl_frame (t o v : Str) (ho : '\n' ∉ o) (hv : '\n' ∉ v)
    (hbo : '\\' ∉ o) (hbv : '\\' ∉ v) :
    ∃ nt ch, set_config_line t o v = some (nt, ch) ∧
      (splitNl nt).length = (splitNl t).length ∧
      ∀ i, enabledMatch o ((splitNl t).getD i []) = false →
        disabledMatch o ((splitNl t).getD i []) = false →
        (splitNl nt).getD i [] = (splitNl t).getD i [] := by
  have hbs := noBs_configNewLine hbo hbv
  by_cases hE : (splitNl t).any (enabledMatch o) = true
  · refine ⟨_, _, set_config_line_branch_en t o v hbs hE, ?_, ?_⟩
    · rw [splitNl_joinNl (scl_map_noNl ho hv _) scl_map_ne_nil]
      exact List.length_map _ _
    · intro i hem _
      rw [splitNl_joinNl (scl_map_noNl ho hv _) scl_map_ne_nil]
      rw [getD_map_of_nil (by rw [if_neg (by simp [em_nil])])]
      rw [if_neg (by rw [hem]; simp)]
  · have hE' : (splitNl t).any (enabledMatch o) = false := by
      rwa [Bool.not_eq_true] at hE
    by_cases hD : (splitNl t).any (disabledMatch o) = true
    · refine ⟨_, _, set_config_line_branch_dis t o v hbs hE' hD, ?_, ?_⟩
      · rw [splitNl_joinNl (scl_map_noNl ho hv _) scl_map_ne_nil]
        exact List.length_map _ _
      · intro i _ hdm
        rw [splitNl_joinNl (scl_map_noNl ho hv _) scl_map_ne_nil]
        rw [getD_map_of_nil (by rw [if_neg (by simp [dm_nil])])]
        rw [if_neg (by rw [hdm]; simp)]
    · have hD' : (splitNl t).any (disabledMatch o) = false := by
        rwa [Bool.not_eq_true] at hD
      exact ⟨t, false, set_config_line_branch_none t o v hE' hD', rfl, fun i _ _ => rfl⟩

theorem append_branch_resplit (lines : List Str) (hdr e : Str)
    (hno : ∀ l ∈ lines, lbFree l = true) (hh : lbFree hdr = true) (he : lbFree e = true) :
    pySplitlines (joinNl (lines ++ ['\n' :: hdr, e]) ++ ['\n']) = lines ++ [[], hdr, e] := by
  have key : joinNl (lines ++ ['\n' :: hdr, e]) = joinNl (lines ++ [[], hdr, e]) := by
    rcases lines with _ | ⟨x, xs⟩
    · show joinNl ['\n' :: hdr, e] = joinNl [[], hdr, e]
      simp [joinNl]
    · rw [joinNl_append (by simp) (by simp), joinNl_append (by simp) (by simp)]
      simp [joinNl]
  rw [key, pySplitlines_joinNl_nl]
  · intro l hl
    rcases List.mem_append.mp hl with h | h
    · exact hno l h
    · simp only [List.mem_cons, List.not_mem_nil, or_false] at h
      rcases h with h | h | h
      · rw [h]; rfl
      · rw [h]; exact hh
      · rw [h]; exact he
  · simp

theorem spe_found_eq (t o v s : Str) (i : Nat)
    (hf : findIdxP (keyMatches (pyUpper o)) (pySplitlines t) = some i)
    (heq : (pyStrip ((pySplitlines t).getD i []) == pyUpper o ++ '=' :: v) = true) :
    set_policy_entry t o v s = (t, false) := by
  unfold set_policy_entry
  simp only [hf, heq]
  rfl

theorem spe_found_ne (t o v s : Str) (i : Nat)
    (hf : findIdxP (keyMatches (pyUpper o)) (pySplitlines t) = some i)
    (hne : (pyStrip ((pySplitlines t).getD i []) == pyUpper o ++ '=' :: v) = false) :
    set_policy_entry t o v s =
      (joinNl ((pySplitlines t).set i (pyUpper o ++ '=' :: v)) ++ ['\n'], true) := by
  unfold set_policy_entry
  simp only [hf, hne]
  rfl

theorem spe_insert (t o v s : Str) (j : Nat)
    (hf : findIdxP (keyMatches (pyUpper o)) (pySplitlines t) = none)
    (hj : findInsertAt ('[' :: s ++ [']']) (pySplitlines t) = some j) :
    set_policy_entry t o v s =
      (joinNl (pyInsert j (pyUpper o ++ '=' :: v) (pySplitlines t)) ++ ['\n'], true) := by
  unfold set_policy_entry
  simp only [hf, hj]

theorem spe_append (t o v s : Str)
    (hf : findIdxP (keyMatches (pyUpper o)) (pySplitlines t) = none)
    (hj : findInsertAt ('[' :: s ++ [']']) (pySplitlines t) = none) :
    set_policy_entry t o v s =
      (joinNl (pySplitlines t ++ ['\n' :: '[' :: s ++ [']'], pyUpper o ++ '=' :: v]) ++ ['\n'],
        true) := by
  unfold set_policy_entry
  simp only [hf, hj]

theorem lbFree_newEntry {o v : Str} (ho : lbFree o = true) (hv : lbFree v = true) :
    lbFree (o ++ '=' :: v) = true :=
  lbFree_append2 ho (lbFree_cons2 (by decide) hv)

theorem lbFree_hdr {s : Str} (hs : lbFree s = true) : lbFree ('[' :: s ++ [']']) = true :=
  lbFree_cons2 (by decide) (lbFree_append2 hs (by decide))

theorem spe_frame (t o v s : Str) (ho : lbFree (pyUpper o) = true) (hv : lbFree v = true)
    (hs : lbFree s = true) :
    ∃ pre mid mid' post,
      pySplitlines t = pre ++ mid ++ post ∧
      pySplitlines (set_policy_entry t o v s).1 = pre ++ mid' ++ post ∧
      mid.length ≤ 1 ∧ ∀ l ∈ mid, keyMatches (pyUpper o) l = true := by
  have hne_nl : lbFree (pyUpper o ++ '=' :: v) = true := lbFree_newEntry ho hv
  cases hf : findIdxP (keyMatches (pyUpper o)) (pySplitlines t) with
  | some i =>
    obtain ⟨hlt, hpi, _⟩ := findIdxP_some hf
    by_cases heq : (pyStrip ((pySplitlines t).getD i []) == pyUpper o ++ '=' :: v) = true
    · refine ⟨pySplitlines t, [], [], [], by simp, ?_, by simp, by simp⟩
      rw [spe_found_eq t o v s i hf heq]
      simp
    · have heq' : (pyStrip ((pySplitlines t).getD i []) == pyUpper o ++ '=' :: v) = false := by
        rwa [Bool.not_eq_true] at heq
      refine ⟨(pySplitlines t).take i, [(pySplitlines t).getD i []], [pyUpper o ++ '=' :: v],
        (pySplitlines t).drop (i + 1),
        by rw [List.append_assoc]; exact self_eq_decomp hlt, ?_, by simp, ?_⟩
      · rw [spe_found_ne t o v s i hf heq']
        dsimp only
        rw [pySplitlines_joinNl_nl ?_ ?_]
        · rw [List.append_assoc]
          exact set_eq_decomp _ hlt
        · intro l hl
          rcases List.mem_or_eq_of_mem_set hl with h | h
          · exact mem_pySplitlines_lbFree h
          · rw [h]; exact hne_nl
        · exact List.ne_nil_of_length_pos (by rw [List.length_set]; omega)
      · intro l hl
        rw [List.mem_singleton.mp hl]
        exact hpi
  | none =>
    cases hj : findInsertAt ('[' :: s ++ [']']) (pySplitlines t) with
    | some j =>
      refine ⟨(pySplitlines t).take j, [], [pyUpper o ++ '=' :: v], (pySplitlines t).drop j,
        by simp, ?_, by simp, by simp⟩
      rw [spe_insert t o v s j hf hj]
      dsimp only
      rw [pySplitlines_joinNl_nl ?_ ?_]
      · simp [pyInsert]
      · intro l hl
        unfold pyInsert at hl
        rcases List.mem_append.mp hl with h | h
        · exact mem_pySplitlines_lbFree (List.take_subset _ _ h)
        · rcases List.mem_cons.mp h with h | h
          · rw [h]; exact hne_nl
          · exact mem_pySplitlines_lbFree (List.drop_subset _ _ h)
      · simp [pyInsert]
    | none =>
      have hhdr : lbFree ('[' :: s ++ [']']) = true := lbFree_hdr hs
      refine ⟨pySplitlines t, [], [[], '[' :: s ++ [']'], pyUpper o ++ '=' :: v], [],
        by simp, ?_, by simp, by simp⟩
      rw [spe_append t o v s hf hj]
      dsimp only
      rw [List.append_nil]
      exact append_branch_resplit (pySplitlines t) ('[' :: s ++ [']']) (pyUpper o ++ '=' :: v)
        (fun l hl => mem_pySplitlines_lbFree hl) hhdr hne_nl

theorem are_found_eq (t o h ty d : Str) (i : Nat)
    (hsub : isSub (docKey o) t = true)
    (hf : findIdxP (rowMatches (docKey o)) (pySplitlines t) = some i)
    (heq : (pyStrip ((pySplitlines t).getD i []) == docNewRow o ty d) = true) :
    add_readme_entry t o h ty d = (t, false) := by
  unfold add_readme_entry
  simp only [hsub, hf, heq]
  rfl

theorem are_found_ne (t o h ty d : Str) (i : Nat)
    (hsub : isSub (docKey o) t = true)
    (hf : findIdxP (rowMatches (docKey o)) (pySplitlines t) = some i)
    (hne : (pyStrip ((pySplitlines t).getD i []) == docNewRow o ty d) = false) :
    add_readme_entry t o h ty d =
      (joinNl ((pySplitlines t).set i (docNewRow o ty d)) ++ ['\n'], true) := by
  unfold add_readme_entry
  simp only [hsub, hf, hne]
  rfl

theorem are_ft_insert (t o h ty d : Str) (j : Nat)
    (hsub : isSub (docKey o) t = true)
    (hf : findIdxP (rowMatches (docKey o)) (pySplitlines t) = none)
    (hj : findDocInsert h (pySplitlines t) = some j) :
    add_readme_entry t o h ty d =
      (joinNl (pyInsert j (docNewRow o ty d) (pySplitlines t)) ++ ['\n'], true) := by
  unfold add_readme_entry
  simp only [hsub, hf, hj]
  rfl

theorem are_ft_noop (t o h ty d : Str)
    (hsub : isSub (docKey o) t = true)
    (hf : findIdxP (rowMatches (docKey o)) (pySplitlines t) = none)
    (hj : findDocInsert h (pySplitlines t) = none) :
    add_readme_entry t o h ty d = (t, false) := by
  unfold add_readme_entry
  simp only [hsub, hf, hj]
  rfl

theorem are_ns_insert (t o h ty d : Str) (j : Nat)
    (hsub : isSub (docKey o) t = false)
    (hj : findDocInsert h (pySplitlines t) = some j) :
    add_readme_entry t o h ty d =
      (joinNl (pyInsert j (docNewRow o ty d) (pySplitlines t)) ++ ['\n'], true) := by
  unfold add_readme_entry
  simp only [hsub, hj]
  rfl

theorem are_ns_noop (t o h ty d : Str)
    (hsub : isSub (docKey o) t = false)
    (hj : findDocInsert h (pySplitlines t) = none) :
    add_readme_entry t o h ty d = (t, false) := by
  unfold add_readme_entry
  simp only [hsub, hj]
  rfl

theorem lbFree_docNewRow {o ty d : Str} (ho : lbFree o = true) (hty : lbFree ty = true)
    (hd : lbFree d = true) : lbFree (docNewRow o ty d) = true := by
  unfold docNewRow
  exact lbFree_append2 (lbFree_append2 (lbFree_append2 (lbFree_append2 (lbFree_append2
    (lbFree_append2 (by decide) ho) (by decide)) hty) (by decide)) hd) (by decide)

theorem insert_resplit (lines : List Str) (e : Str) (j : Nat)
    (hno : ∀ l ∈ lines, lbFree l = true) (he : lbFree e = true) :
    pySplitlines (joinNl (pyInsert j e lines) ++ ['\n']) =
      lines.take j ++ [e] ++ lines.drop j := by
  rw [pySplitlines_joinNl_nl ?_ ?_]
  · simp [pyInsert]
  · intro l hl
    unfold pyInsert at hl
    rcases List.mem_append.mp hl with h | h
    · exact hno l (List.take_subset _ _ h)
    · rcases List.mem_cons.mp h with h | h
      · rw [h]; exact he
      · exact hno l (List.drop_subset _ _ h)
  · simp [pyInsert]

theorem are_frame (t o h ty d : Str) (ho : lbFree o = true) (hty : lbFree ty = true)
    (hd : lbFree d = true) :
    ∃ pre mid mid' post,
      pySplitlines t = pre ++ mid ++ post ∧
      pySplitlines (add_readme_entry t o h ty d).1 = pre ++ mid' ++ post ∧
      mid.length ≤ 1 ∧ ∀ l ∈ mid, rowMatches (docKey o) l = true := by
  have hrow_nl : lbFree (docNewRow o ty d) = true := lbFree_docNewRow ho hty hd
  by_cases hsub : isSub (docKey o) t = true
  · cases hf : findIdxP (rowMatches (docKey o)) (pySplitlines t) with
    | some i =>
      obtain ⟨hlt, hpi, _⟩ := findIdxP_some hf
      by_cases heq : (pyStrip ((pySplitlines t).getD i []) == docNewRow o ty d) = true
      · refine ⟨pySplitlines t, [], [], [], by simp, ?_, by simp, by simp⟩
        rw [are_found_eq t o h ty d i hsub hf heq]
        simp
      · have heq' : (pyStrip ((pySplitlines t).getD i []) == docNewRow o ty d) = false := by
          rwa [Bool.not_eq_true] at heq
        refine ⟨(pySplitlines t).take i, [(pySplitlines t).getD i []], [docNewRow o ty d],
          (pySplitlines t).drop (i + 1),
          by rw [List.append_assoc]; exact self_eq_decomp hlt, ?_, by simp, ?_⟩
        · rw [are_found_ne t o h ty d i hsub hf heq']
          dsimp only
          rw [pySplitlines_joinNl_nl ?_ ?_]
          · rw [List.append_assoc]
            exact set_eq_decomp _ hlt
          · intro l hl
            rcases List.mem_or_eq_of_mem_set hl with hm | hm
            · exact mem_pySplitlines_lbFree hm
            · rw [hm]; exact hrow_nl
          · exact List.ne_nil_of_length_pos (by rw [List.length_set]; omega)
        · intro l hl
          rw [List.mem_singleton.mp hl]
          exact hpi
    | none =>
      cases hj : findDocInsert h (pySplitlines t) with
      | some j =>
        refine ⟨(pySplitlines t).take j, [], [docNewRow o ty d], (pySplitlines t).drop j,
          by simp, ?_, by simp, by simp⟩
        rw [are_ft_insert t o h ty d j hsub hf hj]
        dsimp only
        exact insert_resplit (pySplitlines t) _ j (fun l hl => mem_pySplitlines_lbFree hl) hrow_nl
      | none =>
        refine ⟨pySplitlines t, [], [], [], by simp, ?_, by simp, by simp⟩
        rw [are_ft_noop t o h ty d hsub hf hj]
        simp
  · have hsub' : isSub (docKey o) t = false := by rwa [Bool.not_eq_true] at hsub
    cases hj : findDocInsert h (pySplitlines t) with
    | some j =>
      refine ⟨(pySplitlines t).take j, [], [docNewRow o ty d], (pySplitlines t).drop j,
        by simp, ?_, by simp, by simp⟩
      rw [are_ns_insert t o h ty d j hsub' hj]
      dsimp only
      exact insert_resplit (pySplitlines t) _ j (fun l hl => mem_pySplitlines_lbFree hl) hrow_nl
    | none =>
      refine ⟨pySplitlines t, [], [], [], by simp, ?_, by simp, by simp⟩
      rw [are_ns_noop t o h ty d hsub' hj]
      simp

theorem rpe_frame (t o : Str)
    (hne : ∃ l ∈ pySplitlines t, keyMatches (pyUpper o) l = false) :
    pySplitlines (remove_policy_entry t o).1 =
      (pySplitlines t).filter fun l => !keyMatches (pyUpper o) l := by
  unfold remove_policy_entry
  dsimp only
  rw [pySplitlines_joinNl_nl ?_ ?_]
  · intro l hl
    exact mem_pySplitlines_lbFree (List.mem_of_mem_filter hl)
  · obtain ⟨l, hl, hk⟩ := hne
    intro hnil
    have hmem : l ∈ (pySplitlines t).filter fun l => !keyMatches (pyUpper o) l :=
      List.mem_filter.mpr ⟨hl, by rw [hk]; rfl⟩
    rw [hnil] at hmem
    simp at hmem

theorem rre_frame (t o : Str)
    (hne : ∃ l ∈ pySplitlines t, rowMatches (docKey o) l = false) :
    pySplitlines (remove_readme_entry t o).1 =
      (pySplitlines t).filter fun l => !rowMatches (docKey o) l := by
  unfold remove_readme_entry
  dsimp only
  rw [pySplitlines_joinNl_nl ?_ ?_]
  · intro l hl
    exact mem_pySplitlines_lbFree (List.mem_of_mem_filter hl)
  · obtain ⟨l, hl, hk⟩ := hne
    intro hnil
    have hmem : l ∈ (pySplitlines t).filter fun l => !rowMatches (docKey o) l :=
      List.mem_filter.mpr ⟨hl, by rw [hk]; rfl⟩
    rw [hnil] at hmem
    simp at hmem

/-- C3: every completing edit on the three stores preserves every
untouched line byte-for-byte (stated on the line decomposition, for
single-line arguments whose escapes are literal).  `set_config_line` — for
backslash-free option and value, so that the `re.sub` replacement template
is literal — keeps the line count and leaves every line that matches
neither the enabled nor the not-set pattern of the edited option unchanged;
`set_policy_entry` and `add_readme_entry` change the file only by
replacing at most one line — one whose key/row matches the edited option —
or inserting new ones, with a common preserved prefix and suffix;
`remove_policy_entry` and `remove_readme_entry` keep exactly the
non-matching lines, verbatim and in order.  In particular, `set` on option
A never alters B's line or surrounding unrelated lines. -/
theorem C3_edits_preserve_untouched_lines :
    (∀ t o v, '\n' ∉ o → '\n' ∉ v → '\\' ∉ o → '\\' ∉ v →
      ∃ nt ch, set_config_line t o v = some (nt, ch) ∧
        (splitNl nt).length = (splitNl t).length ∧
        ∀ i, enabledMatch o ((splitNl t).getD i []) = false →
          disabledMatch o ((splitNl t).getD i []) = false →
          (splitNl nt).getD i [] = (splitNl t).getD i []) ∧
    (∀ t o v s, lbFree (pyUpper o) = true → lbFree v = true → lbFree s = true →
      ∃ pre mid mid' post,
        pySplitlines t = pre ++ mid ++ post ∧
        pySplitlines (set_policy_entry t o v s).1 = pre ++ mid' ++ post ∧
        mid.length ≤ 1 ∧ ∀ l ∈ mid, keyMatches (pyUpper o) l = true) ∧
    (∀ t o h ty d, lbFree o = true → lbFree ty = true → lbFree d = true →
      ∃ pre mid mid' post,
        pySplitlines t = pre ++ mid ++ post ∧
        pySplitlines (add_readme_entry t o h ty d).1 = pre ++ mid' ++ post ∧
        mid.length ≤ 1 ∧ ∀ l ∈ mid, rowMatches (docKey o) l = true) ∧
    (∀ t o, (∃ l ∈ pySplitlines t, keyMatches (pyUpper o) l = false) →
      pySplitlines (remove_policy_entry t o).1 =
        (pySplitlines t).filter fun l => !keyMatches (pyUpper o) l) ∧
    (∀ t o, (∃ l ∈ pySplitlines t, rowMatches (docKey o) l = false) →
      pySplitlines (remove_readme_entry t o).1 =
        (pySplitlines t).filter fun l => !rowMatches (docKey o) l) :=
  ⟨scl_frame, spe_frame, are_frame, rpe_frame, rre_frame⟩

/-- Witness for C3: setting A to not-set in a config holding A and B
completes and leaves every non-A line byte-identical, and removing FOO
from a two-entry policy keeps exactly the other entry's line. -/
theorem C3_edits_preserve_untouched_lines_witness :
    (∃ nt ch, set_config_line (strLit "CONFIG_A=y\nCONFIG_B=m\n") (strLit "A") (strLit "n") =
        some (nt, ch) ∧
      (splitNl nt).length = (splitNl (strLit "CONFIG_A=y\nCONFIG_B=m\n")).length ∧
      ∀ i, enabledMatch (strLit "A")
          ((splitNl (strLit "CONFIG_A=y\nCONFIG_B=m\n")).getD i []) = false →
        disabledMatch (strLit "A")
          ((splitNl (strLit "CONFIG_A=y\nCONFIG_B=m\n")).getD i []) = false →
        (splitNl nt).getD i [] = (splitNl (strLit "CONFIG_A=y\nCONFIG_B=m\n")).getD i []) ∧
    pySplitlines (remove_policy_entry (strLit "[a]\nFOO=y\nBAR=n\n") (strLit "FOO")).1 =
      (pySplitlines (strLit "[a]\nFOO=y\nBAR=n\n")).filter
        fun l => !keyMatches (pyUpper (strLit "FOO")) l :=
  ⟨C3_edits_preserve_untouched_lines.1 (strLit "CONFIG_A=y\nCONFIG_B=m\n") (strLit "A")
      (strLit "n") (by decide) (by decide) (by decide) (by decide),
   C3_edits_preserve_untouched_lines.2.2.2.1 (strLit "[a]\nFOO=y\nBAR=n\n") (strLit "FOO")
     ⟨strLit "[a]", by decide, by decide⟩⟩

